import Mathlib

/-!
A verification development for the multilingual header-extraction core of the
repository (files main.py and multilingual_support.py).  The Python code is
shallowly embedded: text is a list of characters, Python floats are modelled
by rationals, dictionaries by association lists in insertion order, and the
try/except boundary by an explicit Except value.  Each theorem at the end of
the file settles one claim about the code.
-/

namespace HeaderExtract

/- Concrete evaluations below compute with rational numbers during
elaboration; the core library marks a few rational operations irreducible,
which only affects unfolding during elaboration, not soundness. -/
attribute [local semireducible] Rat.add Rat.sub Rat.mul Rat.inv
  Rat.ofScientific

/-- Text is modelled as a list of characters (Python str). -/
abbrev Txt := List Char

/-- Unicode whitespace as recognised by Python str.strip and the regex class
backslash-s (ASCII whitespace, NEL, NBSP, ogham space, general punctuation
spaces, line and paragraph separators, narrow and medium spaces, ideographic
space, and the file separators U+001C to U+001F). -/
def isPySpace (c : Char) : Bool :=
  let n := c.toNat
  (0x09 ≤ n && n ≤ 0x0D) || n = 0x20 || (0x1C ≤ n && n ≤ 0x1F) ||
  n = 0x85 || n = 0xA0 || n = 0x1680 || (0x2000 ≤ n && n ≤ 0x200A) ||
  n = 0x2028 || n = 0x2029 || n = 0x202F || n = 0x205F || n = 0x3000

/-- The zero-width and format characters removed by normalize_text
(the regex class U+200B to U+200F, U+2060, U+FEFF). -/
def isZeroWidth (c : Char) : Bool :=
  let n := c.toNat
  (0x200B ≤ n && n ≤ 0x200F) || n = 0x2060 || n = 0xFEFF

/-- Unicode canonical combining class, restricted to the combining marks that
occur in the inputs considered in this development; every other character has
class 0, matching the Unicode property for all characters appearing here. -/
def ccc (c : Char) : Nat :=
  let n := c.toNat
  if 0x0300 ≤ n && n ≤ 0x0314 then 230
  else if n = 0x0316 || n = 0x0317 || n = 0x0318 || n = 0x0319 then 220
  else if n = 0x0327 || n = 0x0328 then 202
  else 0

/-- Unicode canonical decomposition mapping, restricted to a finite fragment
(common Latin-1 precomposed letters); characters outside the table, in
particular all ASCII and CJK characters used in this development, have no
canonical decomposition, matching the Unicode property. -/
def canonDecomp (c : Char) : Option Txt :=
  match c.toNat with
  | 0xE0 => some ['a', '̀'] | 0xE1 => some ['a', '́']
  | 0xE2 => some ['a', '̂'] | 0xE3 => some ['a', '̃']
  | 0xE4 => some ['a', '̈'] | 0xE7 => some ['c', '̧']
  | 0xE8 => some ['e', '̀'] | 0xE9 => some ['e', '́']
  | 0xEA => some ['e', '̂'] | 0xEB => some ['e', '̈']
  | 0xEC => some ['i', '̀'] | 0xED => some ['i', '́']
  | 0xF1 => some ['n', '̃'] | 0xF2 => some ['o', '̀']
  | 0xF3 => some ['o', '́'] | 0xF4 => some ['o', '̂']
  | 0xF6 => some ['o', '̈'] | 0xF9 => some ['u', '̀']
  | 0xFA => some ['u', '́'] | 0xFC => some ['u', '̈']
  | 0xC0 => some ['A', '̀'] | 0xC1 => some ['A', '́']
  | 0xC9 => some ['E', '́'] | 0xD3 => some ['O', '́']
  | _ => none

/-- Canonical decomposition of a string: each character is replaced by its
decomposition when it has one (the decompositions in the table are already
fully decomposed, so one pass suffices). -/
def decompAll (l : Txt) : Txt :=
  l.flatMap fun c => (canonDecomp c).getD [c]

/-- Stable insertion of a combining mark into a run already sorted by
combining class (inserted after the marks of smaller or equal class). -/
def insertMark (c : Char) : Txt → Txt
  | [] => [c]
  | d :: rest => if ccc d ≤ ccc c then d :: insertMark c rest else c :: d :: rest

/-- Stable sort of a run of combining marks by combining class. -/
def sortRun : Txt → Txt
  | [] => []
  | c :: rest => insertMark c (sortRun rest)

/-- The Unicode canonical-ordering step of NFD, carrying the reversed
current run of characters with non-zero combining class: each maximal such
run is stably sorted by class. -/
def canonicalOrderAux : Txt → Txt → Txt
  | acc, [] => sortRun acc.reverse
  | acc, c :: rest =>
    if ccc c = 0 then sortRun acc.reverse ++ c :: canonicalOrderAux [] rest
    else canonicalOrderAux (c :: acc) rest

/-- The Unicode canonical-ordering step of NFD: each maximal run of
characters with non-zero combining class is stably sorted by class. -/
def canonicalOrder (l : Txt) : Txt := canonicalOrderAux [] l

/-- unicodedata.normalize with form NFD: canonical decomposition followed by
canonical ordering. -/
def nfd (l : Txt) : Txt := canonicalOrder (decompAll l)

/-- Removal of zero-width and format characters (the first re.sub in
normalize_text). -/
def removeZeroWidth (l : Txt) : Txt := l.filter (fun c => !isZeroWidth c)

/-- Replacement of every maximal whitespace run by one space (the second
re.sub in normalize_text); the flag records whether the previous character
was whitespace, so that only the first space of a run is emitted. -/
def collapseWsAux : Bool → Txt → Txt
  | _, [] => []
  | prev, c :: rest =>
    if isPySpace c then
      if prev then collapseWsAux true rest else ' ' :: collapseWsAux true rest
    else c :: collapseWsAux false rest

/-- Replacement of every maximal whitespace run by one space. -/
def collapseWs (l : Txt) : Txt := collapseWsAux false l

/-- Python str.strip on the left: drop leading whitespace. -/
def trimLeft (l : Txt) : Txt := l.dropWhile isPySpace

/-- Python str.strip: drop leading and trailing whitespace. -/
def pyStrip (l : Txt) : Txt := (trimLeft (trimLeft l).reverse).reverse

/-- multilingual_support.MultilingualTextProcessor.normalize_text: empty text
maps to empty text; otherwise NFD, removal of zero-width characters,
whitespace collapsing, and stripping. -/
def normalize_text (l : Txt) : Txt :=
  if l = [] then [] else pyStrip (collapseWs (removeZeroWidth (nfd l)))

/-- Python single-character lowercasing for the character ranges used here
(ASCII, Latin-1, Latin Extended Y with diaeresis, Cyrillic). -/
def pyLowerChar (c : Char) : Char :=
  let n := c.toNat
  if 0x41 ≤ n && n ≤ 0x5A then Char.ofNat (n + 32)
  else if (0xC0 ≤ n && n ≤ 0xDE) && n ≠ 0xD7 then Char.ofNat (n + 32)
  else if n = 0x178 then Char.ofNat 0xFF
  else if 0x410 ≤ n && n ≤ 0x42F then Char.ofNat (n + 32)
  else if n = 0x401 then Char.ofNat 0x451
  else c

/-- Python str.lower, character by character. -/
def pyLower (l : Txt) : Txt := l.map pyLowerChar

/-- Python uppercase test for one character (ranges used here). -/
def isUpperChar (c : Char) : Bool :=
  let n := c.toNat
  (0x41 ≤ n && n ≤ 0x5A) || ((0xC0 ≤ n && n ≤ 0xDE) && n ≠ 0xD7) ||
  n = 0x178 || (0x410 ≤ n && n ≤ 0x42F) || n = 0x401

/-- Python lowercase test for one character (ranges used here). -/
def isLowerChar (c : Char) : Bool :=
  let n := c.toNat
  (0x61 ≤ n && n ≤ 0x7A) || ((0xDF ≤ n && n ≤ 0xFF) && n ≠ 0xF7) ||
  (0x430 ≤ n && n ≤ 0x44F) || n = 0x451

/-- A cased character (has an upper or lower case form). -/
def isCasedChar (c : Char) : Bool := isUpperChar c || isLowerChar c

/-- Python str.isdigit for one character (ASCII, Arabic-Indic and
Devanagari digits, the digit sets this program's patterns use). -/
def isDigitChar (c : Char) : Bool :=
  let n := c.toNat
  (0x30 ≤ n && n ≤ 0x39) || (0x660 ≤ n && n ≤ 0x669) || (0x966 ≤ n && n ≤ 0x96F)

/-- An alphabetic character, restricted to the Unicode ranges appearing in
this program's tables (Latin, Cyrillic, Arabic, Hebrew, Devanagari, Thai,
CJK, kana, Hangul). -/
def isAlphaChar (c : Char) : Bool :=
  let n := c.toNat
  isCasedChar c ||
  (0x100 ≤ n && n ≤ 0x17F) || (0x5D0 ≤ n && n ≤ 0x5EA) ||
  (0x620 ≤ n && n ≤ 0x64A) || (0x900 ≤ n && n ≤ 0x963) ||
  (0xE01 ≤ n && n ≤ 0xE5B) || (0x3041 ≤ n && n ≤ 0x3096) ||
  (0x30A1 ≤ n && n ≤ 0x30FA) || (0x4E00 ≤ n && n ≤ 0x9FFF) ||
  (0xAC00 ≤ n && n ≤ 0xD7AF)

/-- A regex word character (backslash-w): alphanumeric or underscore. -/
def isWordChar (c : Char) : Bool :=
  isAlphaChar c || isDigitChar c || c = '_'

/-- Python str.isdigit on a string: non-empty and all digits. -/
def pyIsDigit (l : Txt) : Bool := !l.isEmpty && l.all isDigitChar

/-- Python str.split with no arguments, carrying the reversed current word:
split on whitespace runs, dropping empty pieces. -/
def pySplitAux : Txt → Txt → List Txt
  | acc, [] => if acc.isEmpty then [] else [acc.reverse]
  | acc, c :: rest =>
    if isPySpace c then
      if acc.isEmpty then pySplitAux [] rest
      else acc.reverse :: pySplitAux [] rest
    else pySplitAux (c :: acc) rest

/-- Python str.split with no arguments. -/
def pySplit (l : Txt) : List Txt := pySplitAux [] l

/-- re.findall with a word pattern, carrying the reversed current run: the
maximal runs of word characters. -/
def wordRunsAux : Txt → Txt → List Txt
  | acc, [] => if acc.isEmpty then [] else [acc.reverse]
  | acc, c :: rest =>
    if isWordChar c then wordRunsAux (c :: acc) rest
    else if acc.isEmpty then wordRunsAux [] rest
    else acc.reverse :: wordRunsAux [] rest

/-- re.findall with a word pattern: the maximal runs of word characters. -/
def wordRuns (l : Txt) : List Txt := wordRunsAux [] l

/-- Substring test (the Python in operator on strings). -/
def isSubstr (pat : Txt) : Txt → Bool
  | [] => pat.isEmpty
  | c :: rest => pat.isPrefixOf (c :: rest) || isSubstr pat rest

/-! ## Script detection (multilingual_support.py, detect_text_language) -/

/-- Characters matched by the latin script pattern (the regex class a-z,
A-Z, U+00C0 to U+00FF). -/
def latinChar (c : Char) : Bool :=
  let n := c.toNat
  (0x41 ≤ n && n ≤ 0x5A) || (0x61 ≤ n && n ≤ 0x7A) || (0xC0 ≤ n && n ≤ 0xFF)

/-- Characters matched by the cyrillic pattern (U+0430 to U+044F and yo,
case-insensitive, so the uppercase range as well). -/
def cyrillicChar (c : Char) : Bool :=
  let n := c.toNat
  (0x430 ≤ n && n ≤ 0x44F) || (0x410 ≤ n && n ≤ 0x42F) || n = 0x451 || n = 0x401

/-- Arabic block U+0600 to U+06FF. -/
def arabicChar (c : Char) : Bool :=
  let n := c.toNat; 0x600 ≤ n && n ≤ 0x6FF

/-- Chinese pattern U+4E00 to U+9FFF. -/
def chineseChar (c : Char) : Bool :=
  let n := c.toNat; 0x4E00 ≤ n && n ≤ 0x9FFF

/-- Hiragana block U+3040 to U+309F. -/
def hiraganaChar (c : Char) : Bool :=
  let n := c.toNat; 0x3040 ≤ n && n ≤ 0x309F

/-- Katakana block U+30A0 to U+30FF. -/
def katakanaChar (c : Char) : Bool :=
  let n := c.toNat; 0x30A0 ≤ n && n ≤ 0x30FF

/-- Kanji pattern U+4E00 to U+9FAF. -/
def kanjiChar (c : Char) : Bool :=
  let n := c.toNat; 0x4E00 ≤ n && n ≤ 0x9FAF

/-- Hangul syllables U+AC00 to U+D7AF. -/
def koreanChar (c : Char) : Bool :=
  let n := c.toNat; 0xAC00 ≤ n && n ≤ 0xD7AF

/-- Devanagari block U+0900 to U+097F. -/
def devanagariChar (c : Char) : Bool :=
  let n := c.toNat; 0x900 ≤ n && n ≤ 0x97F

/-- Thai block U+0E00 to U+0E7F. -/
def thaiChar (c : Char) : Bool :=
  let n := c.toNat; 0xE00 ≤ n && n ≤ 0xE7F

/-- Hebrew block U+0590 to U+05FF. -/
def hebrewChar (c : Char) : Bool :=
  let n := c.toNat; 0x590 ≤ n && n ≤ 0x5FF

/-- Number of characters of the text matching a class (the length of the
list produced by re.findall with a single-character class). -/
def countP (p : Char → Bool) (l : Txt) : Nat := (l.filter p).length

/-- The per-script character counts, in the insertion order of the
script_patterns dictionary. -/
def scriptScores (t : Txt) : List (Txt × Nat) :=
  [("latin".data, countP latinChar t),
   ("cyrillic".data, countP cyrillicChar t),
   ("arabic".data, countP arabicChar t),
   ("chinese".data, countP chineseChar t),
   ("japanese_hiragana".data, countP hiraganaChar t),
   ("japanese_katakana".data, countP katakanaChar t),
   ("japanese_kanji".data, countP kanjiChar t),
   ("korean".data, countP koreanChar t),
   ("devanagari".data, countP devanagariChar t),
   ("thai".data, countP thaiChar t),
   ("hebrew".data, countP hebrewChar t)]

/-- Python max over a key-scored sequence: the first entry whose score is
strictly greater than every earlier score wins (max with a key function,
iterating a dict in insertion order). -/
def firstMaxBy {α : Type} (best : α × Nat) : List (α × Nat) → α × Nat
  | [] => best
  | p :: rest => firstMaxBy (if best.2 < p.2 then p else best) rest

/-- Histogram update for a dict used as a counter: bump the key's count, or
append the key with count 1 (dicts iterate in insertion order). -/
def addCount {α : Type} [DecidableEq α] : List (α × Nat) → α → List (α × Nat)
  | [], k => [(k, 1)]
  | p :: rest, k =>
    if p.1 = k then (p.1, p.2 + 1) :: rest else p :: addCount rest k

/-- Score lookup in an association list, defaulting to 0 (dict.get). -/
def lookupCount (k : Txt) (l : List (Txt × Nat)) : Nat :=
  ((l.find? (fun p => p.1 == k)).map Prod.snd).getD 0

/-- The greatest score in the association list (max over dict values). -/
def maxCount (l : List (Txt × Nat)) : Nat :=
  (l.map Prod.snd).foldl Nat.max 0

/-- Python max over the keys of a non-empty dict with the value as key
function: the first key attaining the greatest value (the empty case never
arises for the eleven-entry score table and is given the detector's
fallback answer). -/
def pyMaxKeyByVal (l : List (Txt × Nat)) : Txt :=
  match l with
  | [] => "unknown".data
  | p :: rest => (firstMaxBy p rest).1

/-- multilingual_support.detect_text_language: strip, count characters per
script, return unknown when nothing matches, japanese when any hiragana or
katakana matched, else the first script attaining the highest count. -/
def detect_text_language (text : Txt) : Txt :=
  if text = [] || pyStrip text = [] then "unknown".data
  else
    let t := pyStrip text
    let scores := scriptScores t
    if maxCount scores = 0 then "unknown".data
    else
      let primary := pyMaxKeyByVal scores
      if 0 < lookupCount "japanese_hiragana".data scores ||
         0 < lookupCount "japanese_katakana".data scores then "japanese".data
      else primary

/-! ## Header keywords (multilingual_support.py) -/

/-- The per-language header keyword table of multilingual_support.py
(header_keywords), transcribed verbatim from the source. -/
def headerKeywords : List (String × List String) := [
  ("english", ["introduction", "background", "summary", "conclusion", "references", "acknowledgement", "acknowledgment", "overview", "abstract", "preface", "contents", "chapter", "section", "appendix", "bibliography", "index", "methodology", "results", "discussion", "findings", "analysis"]),
  ("spanish", ["introducción", "antecedentes", "resumen", "conclusión", "referencias", "agradecimientos", "abstracto", "prefacio", "contenidos", "capítulo", "sección", "apéndice", "bibliografía", "índice", "metodología", "resultados", "discusión", "hallazgos", "análisis"]),
  ("french", ["introduction", "contexte", "résumé", "conclusion", "références", "remerciements", "aperçu", "préface", "sommaire", "chapitre", "section", "annexe", "bibliographie", "index", "méthodologie", "résultats", "discussion", "conclusions", "analyse"]),
  ("german", ["einführung", "hintergrund", "zusammenfassung", "schlussfolgerung", "referenzen", "danksagungen", "überblick", "abstrakt", "vorwort", "inhalt", "kapitel", "abschnitt", "anhang", "bibliographie", "index", "methodik", "ergebnisse", "diskussion", "erkenntnisse", "analyse"]),
  ("italian", ["introduzione", "background", "riassunto", "conclusione", "riferimenti", "ringraziamenti", "panoramica", "estratto", "prefazione", "contenuti", "capitolo", "sezione", "appendice", "bibliografia", "indice", "metodologia", "risultati", "discussione", "analisi"]),
  ("portuguese", ["introdução", "antecedentes", "resumo", "conclusão", "referências", "agradecimentos", "visão geral", "prefácio", "conteúdo", "capítulo", "seção", "apêndice", "bibliografia", "índice", "metodologia", "resultados", "discussão", "descobertas", "análise"]),
  ("dutch", ["inleiding", "achtergrond", "samenvatting", "conclusie", "referenties", "dankwoord", "overzicht", "abstract", "voorwoord", "inhoud", "hoofdstuk", "sectie", "bijlage", "bibliografie", "index", "methodologie", "resultaten", "discussie", "bevindingen", "analyse"]),
  ("russian", ["введение", "предпосылки", "резюме", "заключение", "ссылки", "благодарности", "обзор", "аннотация", "предисловие", "содержание", "глава", "раздел", "приложение", "библиография", "индекс", "методология", "результаты", "обсуждение", "выводы", "анализ"]),
  ("chinese", ["介绍", "背景", "摘要", "结论", "参考文献", "致谢", "概述", "前言", "目录", "章节", "部分", "附录", "参考书目", "索引", "方法论", "结果", "讨论", "发现", "分析", "引言", "总结", "概要", "序言"]),
  ("japanese", ["紹介", "背景", "要約", "結論", "参考文献", "謝辞", "概要", "抄録", "序文", "目次", "章", "セクション", "付録", "書誌", "索引", "方法論", "結果", "議論", "発見", "分析", "はじめに", "まとめ", "概観", "序章"]),
  ("korean", ["소개", "배경", "요약", "결론", "참조", "감사의 말", "개요", "초록", "서문", "목차", "장", "섹션", "부록", "참고문헌", "색인", "방법론", "결과", "토론", "발견", "분석", "서론", "정리", "개관", "머리말"]),
  ("arabic", ["مقدمة", "خلفية", "ملخص", "خاتمة", "مراجع", "شكر وتقدير", "نظرة عامة", "مستخلص", "تمهيد", "محتويات", "فصل", "قسم", "ملحق", "ببليوغرافيا", "فهرس", "منهجية", "نتائج", "مناقشة", "استنتاجات", "تحليل"]),
  ("hindi", ["परिचय", "पृष्ठभूमि", "सारांश", "निष्कर्ष", "संदर्भ", "आभार", "अवलोकन", "सार", "प्रस्तावना", "विषय-सूची", "अध्याय", "खंड", "परिशिष्ट", "ग्रंथ-सूची", "सूचकांक", "कार्यप्रणाली", "परिणाम", "चर्चा", "विश्लेषण"])
]

/-- The union of all keyword sets (all_header_keywords). -/
def allHeaderKeywords : List Txt :=
  (headerKeywords.flatMap fun p => p.2).map String.data

/-- multilingual_support.is_multilingual_header_keyword: the lowercased,
normalized text contains some keyword as a substring, or one of its word
runs equals a keyword. -/
def is_multilingual_header_keyword (text : Txt) : Bool :=
  let nt := normalize_text (pyLower text)
  (allHeaderKeywords.any fun k => isSubstr k nt) ||
  ((wordRuns nt).any fun w => allHeaderKeywords.any fun k => k == w)

/-! ## Numbering extraction (multilingual_support.py, numbering_patterns and
extract_multilingual_numbering).  Each regex of the ordered pattern list is
embedded as a function returning the text matched by the whole pattern; the
regexes are anchored at the start and none of them needs backtracking, since
in each one the piece following a greedy repetition cannot begin a character
of that repetition. -/

/-- Digits then a literal dot then optional whitespace. -/
def patNumDot (l : Txt) : Option Txt :=
  let ds := l.takeWhile isDigitChar
  if ds.isEmpty then none else
  match l.dropWhile isDigitChar with
  | c :: r2 => if c = '.' then some (ds ++ c :: r2.takeWhile isPySpace) else none
  | [] => none

/-- Digits, dot, digits, optional whitespace. -/
def patNumDotNum (l : Txt) : Option Txt :=
  let ds := l.takeWhile isDigitChar
  if ds.isEmpty then none else
  match l.dropWhile isDigitChar with
  | c :: r2 =>
    if c = '.' then
      let ds2 := r2.takeWhile isDigitChar
      if ds2.isEmpty then none else
      some (ds ++ c :: ds2 ++ (r2.dropWhile isDigitChar).takeWhile isPySpace)
    else none
  | [] => none

/-- Digits, dot, digits, dot, digits, optional whitespace. -/
def patNumDotNumDotNum (l : Txt) : Option Txt :=
  let ds := l.takeWhile isDigitChar
  if ds.isEmpty then none else
  match l.dropWhile isDigitChar with
  | c :: r2 =>
    if c = '.' then
      let ds2 := r2.takeWhile isDigitChar
      if ds2.isEmpty then none else
      match r2.dropWhile isDigitChar with
      | c2 :: r3 =>
        if c2 = '.' then
          let ds3 := r3.takeWhile isDigitChar
          if ds3.isEmpty then none else
          some (ds ++ c :: ds2 ++ c2 :: ds3 ++
                (r3.dropWhile isDigitChar).takeWhile isPySpace)
        else none
      | [] => none
    else none
  | [] => none

/-- Digits then a closing parenthesis then optional whitespace. -/
def patNumParen (l : Txt) : Option Txt :=
  let ds := l.takeWhile isDigitChar
  if ds.isEmpty then none else
  match l.dropWhile isDigitChar with
  | c :: r2 => if c = ')' then some (ds ++ c :: r2.takeWhile isPySpace) else none
  | [] => none

/-- Parenthesized digits then optional whitespace. -/
def patParenNum (l : Txt) : Option Txt :=
  match l with
  | c0 :: r1 =>
    if c0 = '(' then
      let ds := r1.takeWhile isDigitChar
      if ds.isEmpty then none else
      match r1.dropWhile isDigitChar with
      | c :: r2 =>
        if c = ')' then some (c0 :: ds ++ c :: r2.takeWhile isPySpace) else none
      | [] => none
    else none
  | [] => none

/-- Uppercase Roman-numeral letters. -/
def romanUpper (c : Char) : Bool := c = 'I' || c = 'V' || c = 'X'

/-- Lowercase Roman-numeral letters. -/
def romanLower (c : Char) : Bool := c = 'i' || c = 'v' || c = 'x'

/-- A run of characters of a class, then a given terminator character, then
optional whitespace (the shape of the Roman-numeral patterns). -/
def patRunThen (cls : Char → Bool) (term : Char) (l : Txt) : Option Txt :=
  let rs := l.takeWhile cls
  if rs.isEmpty then none else
  match l.dropWhile cls with
  | c :: r2 => if c = term then some (rs ++ c :: r2.takeWhile isPySpace) else none
  | _ => none

/-- One character of a class, then a given terminator, then optional
whitespace (the shape of the single-letter patterns). -/
def patOneThen (cls : Char → Bool) (term : Char) (l : Txt) : Option Txt :=
  match l with
  | c :: d :: r2 =>
    if cls c && d = term then some (c :: d :: r2.takeWhile isPySpace) else none
  | _ => none

/-- Uppercase ASCII letter. -/
def asciiUpper (c : Char) : Bool := 'A' ≤ c && c ≤ 'Z'

/-- Lowercase ASCII letter. -/
def asciiLower (c : Char) : Bool := 'a' ≤ c && c ≤ 'z'

/-- The Chinese numerals of the CJK numbering pattern. -/
def cjkNumeral (c : Char) : Bool := ("一二三四五六七八九十".data).contains c

/-- CJK numerals then an enumeration comma or a dot, then whitespace. -/
def patCJK (l : Txt) : Option Txt :=
  let rs := l.takeWhile cjkNumeral
  if rs.isEmpty then none else
  match l.dropWhile cjkNumeral with
  | c :: r2 =>
    if c = '、' || c = '.' then some (rs ++ c :: r2.takeWhile isPySpace) else none
  | _ => none

/-- Arabic-Indic digit. -/
def arabicIndicDigit (c : Char) : Bool :=
  let n := c.toNat; 0x660 ≤ n && n ≤ 0x669

/-- Devanagari digit. -/
def devanagariDigit (c : Char) : Bool :=
  let n := c.toNat; 0x966 ≤ n && n ≤ 0x96F

/-- The ordered pattern list of numbering_patterns. -/
def numberingPats : List (Txt → Option Txt) :=
  [patNumDot, patNumDotNum, patNumDotNumDotNum, patNumParen, patParenNum,
   patRunThen romanUpper '.', patRunThen romanLower '.',
   patRunThen romanUpper ')', patRunThen romanLower ')',
   patOneThen asciiUpper '.', patOneThen asciiLower '.',
   patOneThen asciiUpper ')', patOneThen asciiLower ')',
   patCJK, patRunThen arabicIndicDigit '.', patRunThen devanagariDigit '.']

/-- First matching pattern wins; the index of the winner is also returned,
standing for the regex literal the source stores in the result. -/
def firstPat : List (Txt → Option Txt) → Txt → Option (Nat × Txt)
  | [], _ => none
  | p :: rest, t =>
    match p t with
    | some g => some (0, g)
    | none => (firstPat rest t).map fun q => (q.1 + 1, q.2)

/-- The result record of extract_multilingual_numbering. -/
structure NumberingInfo where
  numbering : Txt
  text_without_numbering : Txt
  patIdx : Nat
  deriving DecidableEq, Repr

/-- multilingual_support.extract_multilingual_numbering: normalize, try the
patterns in order, strip the matched prefix, and return the remainder
(computed from the length of the stripped numbering, as in the source). -/
def extract_multilingual_numbering (text : Txt) : Option NumberingInfo :=
  let nt := normalize_text text
  (firstPat numberingPats nt).map fun q =>
    let numbering := pyStrip q.2
    { numbering := numbering
      text_without_numbering := pyStrip (nt.drop numbering.length)
      patIdx := q.1 }

/-- Stable insertion into a list already sorted by the boolean order: the
new element, which originally came later, goes after every element that
compares less-or-equal to it. -/
def insertSorted {A : Type} (le : A → A → Bool) (a : A) : List A → List A
  | [] => [a]
  | b :: rest => if le b a then b :: insertSorted le a rest else a :: b :: rest

/-- Python sorted: a stable sort.  Processing the elements in order and
inserting each after its equals gives exactly the list any stable sort by
the same total preorder produces. -/
def pySorted {A : Type} (le : A → A → Bool) (l : List A) : List A :=
  l.foldl (fun acc a => insertSorted le a acc) []

/-! ## Word-boundary regex searches (the re.search calls with backslash-b in
main.py and multilingual_support.py).  A boundary holds at a point of the
text when exactly one of the two adjacent characters is a word character,
the ends of the text counting as non-word. -/

/-- Match a literal at the front of the text, returning the remainder. -/
def litMatch : Txt → Txt → Option Txt
  | [], l => some l
  | _ :: _, [] => none
  | p :: ps, c :: cs => if p = c then litMatch ps cs else none

/-- Left word-boundary test: the word-ness of the preceding character (false
at the start of the text) must differ from that of the first matched one. -/
def boundaryOkL (prevW firstW : Bool) : Bool := prevW != firstW

/-- Right word-boundary test against the remainder of the text. -/
def boundaryOkR (lastW : Bool) : Txt → Bool
  | [] => lastW
  | d :: _ => lastW != isWordChar d

/-- One fixed alternative matched at the current position, with both
boundaries. -/
def altHitAt (alt : Txt) (prevW : Bool) (l : Txt) : Bool :=
  match alt with
  | [] => false
  | a :: _ =>
    match litMatch alt l with
    | none => false
    | some post =>
      boundaryOkL prevW (isWordChar a) &&
      boundaryOkR (isWordChar (alt.getLastD a)) post

/-- The four-digit-year alternative of the score blacklist, matched at the
current position with both boundaries (digits are word characters). -/
def fourDigitHitAt (prevW : Bool) (l : Txt) : Bool :=
  match l with
  | d1 :: d2 :: d3 :: d4 :: post =>
    isDigitChar d1 && isDigitChar d2 && isDigitChar d3 && isDigitChar d4 &&
    boundaryOkL prevW true && boundaryOkR true post
  | _ => false

/-- Scan the text for a boundary-delimited hit of any alternative, keeping
the word-ness of the previous character as state. -/
def wordSearchAux (alts : List Txt) (four : Bool) (prevW : Bool) : Txt → Bool
  | [] => false
  | c :: rest =>
    (alts.any fun alt => altHitAt alt prevW (c :: rest)) ||
    (four && fourDigitHitAt prevW (c :: rest)) ||
    wordSearchAux alts four (isWordChar c) rest

/-- The blacklist of calculate_multilingual_header_score: page, copyright,
version, a four-digit year, or the copyright sign, between boundaries. -/
def blacklistSearch (l : Txt) : Bool :=
  wordSearchAux ["page".data, "copyright".data, "version".data, "©".data]
    true false l

/-- The four localized page markers of main.py beside the word page,
transcribed character for character from the literals in the source. -/
def localizedPageWords : List Txt :=
  [[Char.ofNat 0xFF, Char.ofNat 0xB5, Char.ofNat 0x178, Char.ofNat 0xC5,
    Char.ofNat 0xFF, Char.ofNat 0x2260, Char.ofNat 0xFF, Char.ofNat 0xA9],
   [Char.ofNat 0xC8, Char.ofNat 0xB0, Char.ofNat 0xB5],
   [Char.ofNat 0x201E, Char.ofNat 0xC9, Char.ofNat 0xF6, Char.ofNat 0x201E,
    Char.ofNat 0xC9, Char.ofNat 0xBA, Char.ofNat 0x201E, Char.ofNat 0xC7,
    Char.ofNat 0x220F],
   [Char.ofNat 0xCC, Char.ofNat 0xE9, Char.ofNat 0xF2, Char.ofNat 0xCF,
    Char.ofNat 0xF9, Char.ofNat 0xA5, Char.ofNat 0xCF, Char.ofNat 0xDF,
    Char.ofNat 0xC4]]

/-- The page-marker search of main.py (used when skipping non-titles and
non-headers): the word page or a localized equivalent between boundaries. -/
def pageWordSearch (l : Txt) : Bool :=
  wordSearchAux ("page".data :: localizedPageWords) false false l

/-- The anchored re.match of a page-number line: the literal page, then at
least one whitespace, then at least one digit. -/
def pageNumHead (l : Txt) : Bool :=
  match litMatch "page".data l with
  | some r =>
    if (r.takeWhile isPySpace).isEmpty then false
    else
      match r.dropWhile isPySpace with
      | d :: _ => isDigitChar d
      | [] => false
  | none => false

/-- The label-shape regex of the document-type classifier: a non-empty run
without whitespace, optional whitespace, a colon, hyphen or underscore, then
optional whitespace to the end.  With backtracking the accepted language is:
all-non-space head, spaces, one separator, trailing spaces. -/
def formFieldShape (l : Txt) : Bool :=
  match l.reverse.dropWhile isPySpace with
  | c :: r =>
    (c = ':' || c = '-' || c = '_') &&
    (let a := r.dropWhile isPySpace
     !a.isEmpty && a.all fun d => !isPySpace d)
  | [] => false

/-! ## Case heuristics (multilingual_support.py) -/

/-- The letter class of is_all_caps_multilingual (Latin and Cyrillic
letters, case-insensitive). -/
def capsLetterClass (c : Char) : Bool :=
  let n := c.toNat
  (0x41 ≤ n && n ≤ 0x5A) || (0x61 ≤ n && n ≤ 0x7A) || (0xC0 ≤ n && n ≤ 0xFF) ||
  n = 0x178 || (0x410 ≤ n && n ≤ 0x42F) || (0x430 ≤ n && n ≤ 0x44F) ||
  n = 0x451 || n = 0x401

/-- multilingual_support.is_title_case_multilingual. -/
def is_title_case_multilingual (text : Txt) : Bool :=
  if text = [] then false
  else
    let script := detect_text_language text
    if script = "latin".data || script = "cyrillic".data then
      let words := pySplit text
      if words.length = 0 then false
      else
        let up := (words.filter fun w =>
          match w with
          | [] => false
          | c :: _ => isUpperChar c).length
        decide ((words.length : ℚ) * 0.7 ≤ (up : ℚ))
    else if script = "chinese".data || script = "japanese".data ||
            script = "korean".data then
      decide (5 ≤ text.length) && decide (text.length ≤ 80)
    else if script = "arabic".data then
      decide (5 ≤ text.length) && decide (text.length ≤ 80) &&
      !(text.getLastD ' ' = '.')
    else if script = "devanagari".data then
      decide (5 ≤ text.length) && decide (text.length ≤ 80)
    else false

/-- multilingual_support.is_all_caps_multilingual. -/
def is_all_caps_multilingual (text : Txt) : Bool :=
  if text = [] then false
  else
    let script := detect_text_language text
    if script = "latin".data || script = "cyrillic".data then
      let letters := text.filter capsLetterClass
      if letters.isEmpty then false
      else decide ((letters.length : ℚ) * 0.8 ≤
                   ((letters.filter isUpperChar).length : ℚ))
    else false

/-! ## Heading score (multilingual_support.py,
calculate_multilingual_header_score) -/

/-- Python max of two rationals (kernel-computable). -/
def ratMax (a b : ℚ) : ℚ := if a ≤ b then b else a

/-- Python min of two rationals (kernel-computable). -/
def ratMin (a b : ℚ) : ℚ := if a ≤ b then a else b

/-- The score accumulator of calculate_multilingual_header_score before the
final clamp. -/
def rawHeaderScore (text : Txt) (font_size : ℚ)
    (is_bold : Bool) (dominant_font_size : ℚ) : ℚ :=
    let nt := normalize_text text
    let size_r := font_size / dominant_font_size
    let s : ℚ := 0
    let s := if size_r ≥ 1.5 then s + 0.5
             else if size_r ≥ 1.3 then s + 0.4
             else if size_r ≥ 1.2 then s + 0.3
             else if size_r ≥ 1.1 then s + 0.2
             else s - 0.1
    let s := if is_bold then s + 0.4 else s
    let s := match extract_multilingual_numbering nt with
      | some info =>
        if info.numbering.contains '.' then
          let dots := info.numbering.count '.'
          if dots = 1 then s + 0.6
          else if dots = 2 then s + 0.5
          else if dots = 3 then s + 0.4
          else s
        else s + 0.3
      | none => s
    let s := if is_multilingual_header_keyword nt then s + 0.3 else s
    let s := if is_title_case_multilingual nt then s + 0.3 else s
    let s := if is_all_caps_multilingual nt &&
                (decide (5 ≤ nt.length) && decide (nt.length ≤ 50))
             then s + 0.4 else s
    let s := if nt.getLastD ' ' = ':' then s + 0.3 else s
    let s := if 120 < nt.length then s - 0.2 else s
    let s := if 2 < nt.count ',' then s - 0.2 else s
    let s := if blacklistSearch (pyLower nt) then s - 0.3 else s
    s

/-- The clamped heading-likelihood score of a fragment
(calculate_multilingual_header_score): zero for empty text, else the
accumulated score clamped to the unit interval. -/
def calculate_multilingual_header_score (text : Txt) (font_size : ℚ)
    (is_bold : Bool) (dominant_font_size : ℚ) : ℚ :=
  if text = [] then 0
  else ratMax 0 (ratMin (rawHeaderScore text font_size is_bold
    dominant_font_size) 1)

/-- The record returned by get_language_info. -/
structure LangInfo where
  script : Txt
  normalized_text : Txt
  has_numbering : Bool
  numbering_info : Option NumberingInfo
  has_header_keywords : Bool
  is_title_case : Bool
  is_all_caps : Bool
  deriving DecidableEq, Repr

/-- multilingual_support.get_language_info. -/
def get_language_info (text : Txt) : LangInfo :=
  { script := detect_text_language text
    normalized_text := normalize_text text
    has_numbering := (extract_multilingual_numbering text).isSome
    numbering_info := extract_multilingual_numbering text
    has_header_keywords := is_multilingual_header_keyword text
    is_title_case := is_title_case_multilingual text
    is_all_caps := is_all_caps_multilingual text }

/-! ## Document elements and global analysis (main.py,
_analyze_document_structure and helpers).  The input is modelled as the page
stream the PDF backend delivers: a list of pages, each a list of raw spans in
reading order; this is exactly the flattened span sequence the analysis loop
of the source iterates over. -/

/-- A raw span as delivered by the input adapter: text, font size, style
flags, bounding box and font name. -/
structure RawSpan where
  text : Txt
  size : ℚ
  flags : Nat
  bbox : ℚ × ℚ × ℚ × ℚ
  font : Txt
  deriving DecidableEq, Repr

/-- A text element of the analysis loop (one accepted span). -/
structure Element where
  text : Txt
  normalized_text : Txt
  page : Nat
  font_size : ℚ
  is_bold : Bool
  bbox : ℚ × ℚ × ℚ × ℚ
  y_pos : ℚ
  x_pos : ℚ
  font_name : Txt
  language_info : LangInfo
  deriving DecidableEq, Repr

/-- Build one element from a span: strip the text, keep it when longer than
one character, attach normalization, boldness (bit 4 of the flags) and
language information (the body of the span loop of
_analyze_document_structure). -/
def spanElement (pageNum : Nat) (sp : RawSpan) : Option Element :=
  let text := pyStrip sp.text
  if 1 < text.length then
    some { text := text
           normalized_text := normalize_text text
           page := pageNum + 1
           font_size := sp.size
           is_bold := sp.flags.testBit 4
           bbox := sp.bbox
           y_pos := sp.bbox.2.1
           x_pos := sp.bbox.1
           font_name := sp.font
           language_info := get_language_info text }
  else none

/-- All text elements of the document, in reading order across pages. -/
def allTextElements (pages : List (List RawSpan)) : List Element :=
  pages.enum.flatMap fun pi => pi.2.filterMap (spanElement pi.1)

/-- main.py _determine_document_type_multilingual: classify the document
from the colon-label fraction, the label-shape fraction, the numbered-item
count and the short-fragment fraction. -/
def _determine_document_type_multilingual (text_elements : List Element) : Txt :=
  if text_elements = [] then "unknown".data
  else
    let n : ℚ := text_elements.length
    let short_labels := (text_elements.filter fun e =>
      decide (e.normalized_text.length < 40) && e.text.contains ':').length
    let form_fields := (text_elements.filter fun e =>
      let t := e.normalized_text
      decide (t.length < 50) &&
      (t.getLastD ' ' = ':' || formFieldShape t ||
       is_title_case_multilingual t)).length
    let formFrac : ℚ := short_labels / n
    let fieldFrac : ℚ := form_fields / n
    let numbered := (text_elements.filter fun e =>
      (extract_multilingual_numbering e.text).isSome).length
    let single_words := (text_elements.filter fun e =>
      (pySplit e.normalized_text).length ≤ 2).length
    let tableFrac : ℚ := single_words / n
    if (formFrac > 0.25 && fieldFrac > 0.15) || formFrac > 0.35 then "form".data
    else if text_elements.length < 100 && tableFrac > 0.5 then
      "simple_document".data
    else if 8 < numbered then "structured_document".data
    else if tableFrac > 0.6 then "table_heavy".data
    else "document".data

/-- main.py _has_numbered_sections_multilingual: at least three fragments
carry a numbering. -/
def _has_numbered_sections_multilingual (text_elements : List Element) : Bool :=
  3 ≤ (text_elements.filter fun e =>
    (extract_multilingual_numbering e.text).isSome).length

/-- main.py _has_hierarchical_structure: the distinct font sizes, sorted
descending, show at least one adjacent gap of 1.5 or more. -/
def _has_hierarchical_structure (text_elements : List Element) : Bool :=
  let sizes := (text_elements.map (fun e => e.font_size)).dedup
  if sizes.length < 2 then false
  else
    let sorted := pySorted (fun a b => decide (b ≤ a)) sizes
    1 ≤ ((sorted.zip sorted.tail).filter fun p =>
      decide (p.1 - p.2 ≥ 1.5)).length

/-- A title candidate: the text and its integer score (the element and
language-info back references of the source dict are never read after
construction and are omitted). -/
structure TitleCand where
  text : Txt
  score : Nat
  deriving DecidableEq, Repr

/-- main.py _find_title_candidates_multilingual: scan the topmost twenty
first-page fragments, skip non-title shapes, score the survivors and keep
those scoring at least two, sorted by descending score. -/
def _find_title_candidates_multilingual (first_page_elements : List Element)
    (dominant : ℚ) : List TitleCand :=
  let sorted_elements := pySorted (fun a b => decide (a.y_pos ≤ b.y_pos))
    first_page_elements
  let cands := (sorted_elements.take 20).filterMap fun elem =>
    let text := pyStrip elem.text
    let nt := elem.normalized_text
    if nt.length < 2 || 300 < nt.length then none
    else if pageNumHead (pyLower text) ||
            (pyIsDigit text && decide (text.length < 3)) ||
            pageWordSearch (pyLower nt) then none
    else
      let sc : Nat := 0
      let sc := if elem.font_size > dominant + 2 then sc + 4
                else if elem.font_size > dominant + 1 then sc + 3
                else if elem.font_size > dominant then sc + 2
                else sc
      let sc := if elem.is_bold then sc + 3 else sc
      let sc := if elem.y_pos < 300 then sc + 2
                else if elem.y_pos < 500 then sc + 1
                else sc
      let sc := if 5 ≤ nt.length && nt.length ≤ 150 then sc + 1 else sc
      let sc := if elem.language_info.is_title_case ||
                   elem.language_info.is_all_caps then sc + 2 else sc
      let sc := if is_multilingual_header_keyword text then sc + 1 else sc
      if 2 ≤ sc then some { text := text, score := sc } else none
  pySorted (fun a b => decide (b.score ≤ a.score)) cands

/-- A heading candidate (the element back reference of the source dict is
never read after construction and is omitted; the language info, which is
always attached by the source, is kept). -/
structure HeadingCand where
  text : Txt
  page : Nat
  level : Txt
  score : ℚ
  language_info : LangInfo
  deriving DecidableEq, Repr

/-- main.py _determine_header_level_multilingual: level from the dot count
of the numbering when one is present, else from size-ratio thresholds. -/
def _determine_header_level_multilingual (elem : Element) (dominant : ℚ) : Txt :=
  let text := pyStrip elem.text
  let size_r := elem.font_size / dominant
  match extract_multilingual_numbering text with
  | some info =>
    if info.numbering.contains '.' then
      let dots := info.numbering.count '.'
      if dots = 1 then "H1".data
      else if dots = 2 then "H2".data
      else if dots = 3 then "H3".data
      else "H4".data
    else "H1".data
  | none =>
    if size_r ≥ 1.6 || (size_r ≥ 1.4 && elem.is_bold) then "H1".data
    else if size_r ≥ 1.3 || (size_r ≥ 1.15 && elem.is_bold) then "H2".data
    else if size_r ≥ 1.1 || elem.is_bold then "H3".data
    else "H4".data

/-- main.py _find_potential_headers_multilingual: empty for forms, else
every fragment of normalized length 2 to 200 that is not a bare short digit
string or page marker and scores at least 0.5. -/
def _find_potential_headers_multilingual (text_elements : List Element)
    (dominant : ℚ) (doc_type : Txt) : List HeadingCand :=
  if doc_type = "form".data then []
  else
    text_elements.filterMap fun elem =>
      let text := pyStrip elem.text
      let nt := elem.normalized_text
      if nt.length < 2 || 200 < nt.length then none
      else if (pyIsDigit text && decide (text.length < 3)) ||
              pageWordSearch (pyLower nt) then none
      else
        let hs := calculate_multilingual_header_score text elem.font_size
          elem.is_bold dominant
        if hs ≥ 0.5 then
          some { text := text
                 page := elem.page
                 level := _determine_header_level_multilingual elem dominant
                 score := hs
                 language_info := elem.language_info }
        else none

/-- The global analysis record of _analyze_document_structure (the fields
the later stages read). -/
structure Analysis where
  page_count : Nat
  font_sizes : List (ℚ × Nat)
  document_type : Txt
  has_numbered_sections : Bool
  has_hierarchical_structure : Bool
  dominant_font_size : ℚ
  title_candidates : List TitleCand
  potential_headers : List HeadingCand
  scripts : List (Txt × Nat)
  primary_script : Txt
  has_mixed_scripts : Bool
  deriving Repr

/-- main.py _analyze_document_structure: collect the elements, build the
font-size and script histograms, take the dominant size (first mode,
defaulting to 10), classify the document and compute the candidate pools. -/
def _analyze_document_structure (pages : List (List RawSpan)) : Analysis :=
  let elems := allTextElements pages
  let fontSizes := elems.foldl (fun h e => addCount h e.font_size) []
  let scripts := elems.foldl (fun h e => addCount h e.language_info.script) []
  let dominant : ℚ :=
    match fontSizes with
    | [] => 10
    | p :: rest => (firstMaxBy p rest).1
  let primary : Txt :=
    match scripts with
    | [] => "unknown".data
    | p :: rest => (firstMaxBy p rest).1
  let doc_type := _determine_document_type_multilingual elems
  { page_count := pages.length
    font_sizes := fontSizes
    document_type := doc_type
    has_numbered_sections := _has_numbered_sections_multilingual elems
    has_hierarchical_structure := _has_hierarchical_structure elems
    dominant_font_size := dominant
    title_candidates :=
      if elems = [] then []
      else _find_title_candidates_multilingual
        (elems.filter fun e => e.page = 1) dominant
    potential_headers := _find_potential_headers_multilingual elems dominant
      doc_type
    scripts := scripts
    primary_script := primary
    has_mixed_scripts :=
      1 < (scripts.filter fun p => p.1 ≠ "unknown".data).length }

/-! ## Outline assembly (main.py, _extract_headers_from_structure) -/

/-- An emitted outline entry: the three dict keys level, text and page, and
the optional language key the source adds when the candidate carries
language information. -/
structure HeaderInfo where
  level : Txt
  text : Txt
  page : Nat
  language : Option Txt
  deriving DecidableEq, Repr

/-- The keys of the emitted dict, in insertion order. -/
def headerInfoKeys (h : HeaderInfo) : List Txt :=
  ["level".data, "text".data, "page".data] ++
  (if h.language.isSome then ["language".data] else [])

/-- The sort of the assembler: page ascending, then score descending (the
Python tuple key, under a stable sort). -/
def headerSortLE (a b : HeadingCand) : Bool :=
  a.page < b.page || (a.page = b.page && decide (b.score ≤ a.score))

/-- The deduplication walk of the assembler: skip a candidate whose
lowercased normalized text was already seen or is shorter than two
characters, else emit it and mark it seen. -/
def dedupWalk : List Txt → List HeadingCand → List HeaderInfo
  | _, [] => []
  | seen, h :: rest =>
    let key := normalize_text (pyLower h.text)
    if seen.contains key then dedupWalk seen rest
    else if key.length < 2 then dedupWalk seen rest
    else { level := h.level, text := h.text, page := h.page,
           language := some h.language_info.script } ::
         dedupWalk (key :: seen) rest

/-- main.py _extract_headers_from_structure: empty for forms; for simple
documents keep only scores of at least 0.7; sort, deduplicate and truncate
to forty entries.  (The surrounding try/except of the source only guards
exceptions of the runtime; the embedding is total.) -/
def _extract_headers_from_structure (analysis : Analysis) : List HeaderInfo :=
  let doc_type := analysis.document_type
  if doc_type = "form".data then []
  else
    let ph := analysis.potential_headers
    let ph := if doc_type = "simple_document".data then
        ph.filter fun h => h.score ≥ 0.7
      else ph
    (dedupWalk [] (pySorted headerSortLE ph)).take 40

/-! ## Title selection (main.py, _extract_title_from_structure and
_clean_filename) -/

/-- Case-insensitive literal match at the front of the text. -/
def litMatchCI : Txt → Txt → Option Txt
  | [], l => some l
  | _ :: _, [] => none
  | p :: ps, c :: cs =>
    if pyLowerChar p = pyLowerChar c then litMatchCI ps cs else none

/-- Python upper-casing of one character (ranges used here; the sharp s,
which Python expands to a two-letter form, does not occur in the inputs
considered). -/
def pyUpperChar (c : Char) : Char :=
  let n := c.toNat
  if 0x61 ≤ n && n ≤ 0x7A then Char.ofNat (n - 32)
  else if (0xE0 ≤ n && n ≤ 0xFE) && n ≠ 0xF7 && n ≠ 0xDF then Char.ofNat (n - 32)
  else if n = 0xFF then Char.ofNat 0x178
  else if 0x430 ≤ n && n ≤ 0x44F then Char.ofNat (n - 32)
  else if n = 0x451 then Char.ofNat 0x401
  else c

/-- Python str.islower: some cased character, and no cased character that is
not lowercase. -/
def pyIsLowerStr (l : Txt) : Bool :=
  l.any isCasedChar && l.all fun c => !isCasedChar c || isLowerChar c

/-- Python str.isupper. -/
def pyIsUpperStr (l : Txt) : Bool :=
  l.any isCasedChar && l.all fun c => !isCasedChar c || isUpperChar c

/-- Python str.title: upper-case a cased character following a non-cased
one, lower-case the others. -/
def pyTitle (l : Txt) : Txt :=
  ((l.foldl (fun (acc : Txt × Bool) c =>
      ((if acc.2 then pyLowerChar c else pyUpperChar c) :: acc.1,
       isCasedChar c))
    ([], false)).1).reverse

/-- pathlib Path.stem: the final path component without its last suffix (a
suffix needs a dot that is neither the first nor the last character of the
component). -/
def pathStem (p : Txt) : Txt :=
  let name := (p.reverse.takeWhile fun c => c ≠ '/').reverse
  let r := name.reverse
  let ext := r.takeWhile fun c => c ≠ '.'
  match r.dropWhile fun c => c ≠ '.' with
  | '.' :: rest =>
    if rest.isEmpty || ext.isEmpty then name else rest.reverse
  | _ => name

/-- The anchored case-insensitive word-processor marker of _clean_filename:
the literal microsoft, whitespace, word, optional whitespace, a hyphen,
optional whitespace; when present at the front it is removed. -/
def dropMsWordMarker (l : Txt) : Txt :=
  match litMatchCI "microsoft".data l with
  | none => l
  | some r =>
    if (r.takeWhile isPySpace).isEmpty then l
    else
      match litMatchCI "word".data (r.dropWhile isPySpace) with
      | none => l
      | some r2 =>
        match r2.dropWhile isPySpace with
        | '-' :: r3 => r3.dropWhile isPySpace
        | _ => l

/-- main.py _clean_filename: stem, drop the word-processor marker, turn
separators into spaces, collapse and strip whitespace, title-case an
all-lower or all-upper result, and fall back to the literal Document. -/
def _clean_filename (pdf_path : Txt) : Txt :=
  if pdf_path = [] then "Document".data
  else
    let filename := pathStem pdf_path
    let filename := dropMsWordMarker filename
    let filename := filename.map fun c => if c = '_' || c = '-' then ' ' else c
    let filename := pyStrip (collapseWs filename)
    let filename := if pyIsLowerStr filename || pyIsUpperStr filename then
        pyTitle filename
      else filename
    if filename = [] then "Document".data else filename

/-- main.py _extract_title_from_structure: a truthy metadata title whose
stripped length is strictly between 3 and 300 wins; else the best structural
candidate; else the cleaned filename.  (The surrounding try/except of the
source only guards exceptions of the runtime; the embedding is total.) -/
def _extract_title_from_structure (metaTitle : Option Txt)
    (title_candidates : List TitleCand) (docName : Txt) : Txt :=
  let fallback :=
    match title_candidates with
    | best :: _ => best.text
    | [] => _clean_filename docName
  match metaTitle with
  | some t =>
    if t ≠ [] then
      let title := pyStrip t
      if 3 < title.length && title.length < 300 then title else fallback
    else fallback
  | none => fallback

/-! ## The extraction call (main.py, extract_structure) -/

/-- The result of one extraction call. -/
structure ExtractionResult where
  title : Txt
  outline : List HeaderInfo
  deriving DecidableEq, Repr

/-- The pure core of extract_structure once the document is open: analyse,
select the title, assemble the outline. -/
def extractStructureCore (pages : List (List RawSpan)) (metaTitle : Option Txt)
    (docName : Txt) : ExtractionResult :=
  let analysis := _analyze_document_structure pages
  { title := _extract_title_from_structure metaTitle analysis.title_candidates
      docName
    outline := _extract_headers_from_structure analysis }

/-- main.py extract_structure with its try/except boundary made explicit:
the body of the try block after the existence check (opening the document
and everything that can raise) is abstracted as an Except value; a missing
file yields the File-not-found sentinel and a raised exception the Error
sentinel, both with an empty outline.  The function is total: no exception
propagates. -/
def extract_structure (fileExists : Bool)
    (body : Except Txt (Txt × List HeaderInfo)) : ExtractionResult :=
  if !fileExists then { title := "File not found".data, outline := [] }
  else
    match body with
    | .error msg => { title := "Error: ".data ++ msg, outline := [] }
    | .ok r => { title := r.1, outline := r.2 }

/-! ## Concrete inputs used by the claim theorems -/

set_option maxRecDepth 10000

/-- A raw span with the given text, size and boldness (bold is bit 4 of the
style flags). -/
def mkSpan (t : String) (sz : ℚ) (bold : Bool) (y : ℚ) : RawSpan :=
  { text := t.data, size := sz, flags := if bold then 16 else 0,
    bbox := (50, y, 200, y + 12), font := "F".data }

/-- A one-page document with two numbered headings over a body in font 10:
the dominant font size is 10 and the document type is document. -/
def docNumbered : List (List RawSpan) :=
  [[mkSpan "1. Introduction" 18 true 50,
    mkSpan "plain body text" 10 false 80,
    mkSpan "1.1 Background" 14 false 120,
    mkSpan "some more words" 10 false 150]]

/-- A one-fragment document (classified simple_document). -/
def docSimple : List (List RawSpan) := [[mkSpan "1. Introduction" 18 true 50]]

/-- A form-like document of colon-terminated labels. -/
def docForm : List (List RawSpan) :=
  [[mkSpan "Name:" 12 false 50, mkSpan "Date:" 12 false 80,
    mkSpan "Address:" 12 false 110, mkSpan "Phone:" 12 false 140]]

/-- The element the analysis loop builds for a fragment reading 1.1
Background in font 14, not bold, over dominant font 10. -/
def elemBackground : Element :=
  { text := "1.1 Background".data
    normalized_text := normalize_text "1.1 Background".data
    page := 1
    font_size := 14
    is_bold := false
    bbox := (50, 120, 200, 132)
    y_pos := 120
    x_pos := 50
    font_name := "F".data
    language_info := get_language_info "1.1 Background".data }

/-- The element for a fragment reading 1.2.3 Overview in font 12. -/
def elemOverview : Element :=
  { text := "1.2.3 Overview".data
    normalized_text := normalize_text "1.2.3 Overview".data
    page := 1
    font_size := 12
    is_bold := false
    bbox := (50, 50, 200, 62)
    y_pos := 50
    x_pos := 50
    font_name := "F".data
    language_info := get_language_info "1.2.3 Overview".data }

/-! ## Definitions for the normalizer idempotence claim -/

/-- A canonically inert character: combining class zero, no canonical
decomposition, and not a zero-width character (every ASCII character
qualifies). -/
def inertChar (c : Char) : Bool :=
  decide (ccc c = 0) && (canonDecomp c).isNone && !isZeroWidth c

/-- No two adjacent whitespace characters. -/
def spacedOk (l : Txt) : Prop :=
  l.Chain' fun a b => ¬(isPySpace a = true ∧ isPySpace b = true)

/-- Every whitespace character is the plain space. -/
def blanksOk (l : Txt) : Prop := ∀ c ∈ l, isPySpace c = true → c = ' '

/-! ## Lemmas about the numbering extractor -/

/-- A run selected by takeWhile contains no character failing the test. -/
lemma count_takeWhile_eq_zero {p : Char → Bool} {l : Txt} {a : Char}
    (ha : p a = false) : (l.takeWhile p).count a = 0 := by
  rw [List.count_eq_zero]
  intro hmem
  have h := List.mem_takeWhile_imp hmem
  simp [h] at ha

/-- Stripping only removes characters, so the count cannot grow. -/
lemma count_pyStrip_le (a : Char) (l : Txt) : (pyStrip l).count a ≤ l.count a := by
  unfold pyStrip trimLeft
  rw [List.count_reverse]
  refine le_trans ((List.dropWhile_sublist _).count_le a) ?_
  rw [List.count_reverse]
  exact (List.dropWhile_sublist _).count_le a

lemma patNumDot_dots {l g : Txt} (h : patNumDot l = some g) : g.count '.' ≤ 1 := by
  by_cases hds : (l.takeWhile isDigitChar).isEmpty
  · simp [patNumDot, hds] at h
  · cases hdw : l.dropWhile isDigitChar with
    | nil => simp [patNumDot, hds, hdw] at h
    | cons c r2 =>
      by_cases hc : c = '.'
      · simp [patNumDot, hds, hdw, hc] at h
        subst h
        simp [List.count_append, List.count_cons,
          count_takeWhile_eq_zero (p := isDigitChar) (a := '.') (by decide),
          count_takeWhile_eq_zero (p := isPySpace) (a := '.') (by decide)]
      · simp [patNumDot, hds, hdw, hc] at h

lemma patNumDotNum_dots {l g : Txt} (h : patNumDotNum l = some g) :
    g.count '.' ≤ 1 := by
  by_cases hds : (l.takeWhile isDigitChar).isEmpty
  · simp [patNumDotNum, hds] at h
  · cases hdw : l.dropWhile isDigitChar with
    | nil => simp [patNumDotNum, hds, hdw] at h
    | cons c r2 =>
      by_cases hc : c = '.'
      · by_cases hds2 : (r2.takeWhile isDigitChar).isEmpty
        · simp [patNumDotNum, hds, hdw, hc, hds2] at h
        · simp [patNumDotNum, hds, hdw, hc, hds2] at h
          subst h
          simp [List.count_append, List.count_cons,
            count_takeWhile_eq_zero (p := isDigitChar) (a := '.') (by decide),
            count_takeWhile_eq_zero (p := isPySpace) (a := '.') (by decide)]
      · simp [patNumDotNum, hds, hdw, hc] at h

/-- The three-level pattern is unreachable: whenever it could match, the
single-level pattern placed before it matches as well. -/
lemma patNumDotNumDotNum_none {l : Txt} (h : patNumDot l = none) :
    patNumDotNumDotNum l = none := by
  by_cases hds : (l.takeWhile isDigitChar).isEmpty
  · simp [patNumDotNumDotNum, hds]
  · cases hdw : l.dropWhile isDigitChar with
    | nil => simp [patNumDotNumDotNum, hds, hdw]
    | cons c r2 =>
      by_cases hc : c = '.'
      · exfalso
        simp [patNumDot, hds, hdw, hc] at h
      · simp [patNumDotNumDotNum, hds, hdw, hc]

lemma patNumParen_dots {l g : Txt} (h : patNumParen l = some g) :
    g.count '.' ≤ 1 := by
  by_cases hds : (l.takeWhile isDigitChar).isEmpty
  · simp [patNumParen, hds] at h
  · cases hdw : l.dropWhile isDigitChar with
    | nil => simp [patNumParen, hds, hdw] at h
    | cons c r2 =>
      by_cases hc : c = ')'
      · simp [patNumParen, hds, hdw, hc] at h
        subst h
        simp [List.count_append, List.count_cons,
          count_takeWhile_eq_zero (p := isDigitChar) (a := '.') (by decide),
          count_takeWhile_eq_zero (p := isPySpace) (a := '.') (by decide)]
      · simp [patNumParen, hds, hdw, hc] at h

lemma patParenNum_dots {l g : Txt} (h : patParenNum l = some g) :
    g.count '.' ≤ 1 := by
  cases l with
  | nil => simp [patParenNum] at h
  | cons c0 r1 =>
    by_cases hc0 : c0 = '('
    · by_cases hds : (r1.takeWhile isDigitChar).isEmpty
      · simp [patParenNum, hc0, hds] at h
      · cases hdw : r1.dropWhile isDigitChar with
        | nil => simp [patParenNum, hc0, hds, hdw] at h
        | cons c r2 =>
          by_cases hc : c = ')'
          · simp [patParenNum, hc0, hds, hdw, hc] at h
            subst h
            simp [List.count_append, List.count_cons, hc0,
              count_takeWhile_eq_zero (p := isDigitChar) (a := '.') (by decide),
              count_takeWhile_eq_zero (p := isPySpace) (a := '.') (by decide)]
          · simp [patParenNum, hc0, hds, hdw, hc] at h
    · simp [patParenNum, hc0] at h

lemma patRunThen_dots {cls : Char → Bool} {term : Char} {l g : Txt}
    (hcls : cls '.' = false) (h : patRunThen cls term l = some g) :
    g.count '.' ≤ 1 := by
  by_cases hrs : (l.takeWhile cls).isEmpty
  · simp [patRunThen, hrs] at h
  · cases hdw : l.dropWhile cls with
    | nil => simp [patRunThen, hrs, hdw] at h
    | cons c r2 =>
      by_cases hc : c = term
      · simp [patRunThen, hrs, hdw, hc] at h
        subst h
        simp [List.count_append, List.count_cons,
          count_takeWhile_eq_zero (p := cls) (a := '.') hcls,
          count_takeWhile_eq_zero (p := isPySpace) (a := '.') (by decide)]
        split <;> omega
      · simp [patRunThen, hrs, hdw, hc] at h

lemma patOneThen_dots {cls : Char → Bool} {term : Char} {l g : Txt}
    (hcls : cls '.' = false) (h : patOneThen cls term l = some g) :
    g.count '.' ≤ 1 := by
  match l with
  | [] => simp [patOneThen] at h
  | [c] => simp [patOneThen] at h
  | c :: d :: r2 =>
    by_cases hcd : cls c && d = term
    · simp only [patOneThen, hcd, if_true, Option.some_inj] at h
      subst h
      have hc : ('.' : Char) ≠ c := by
        intro he
        rw [← he] at hcd
        simp [hcls] at hcd
      simp [List.count_cons, hc,
        count_takeWhile_eq_zero (p := isPySpace) (a := '.') (by decide)]
      split <;> omega
    · simp [patOneThen, hcd] at h

lemma patCJK_dots {l g : Txt} (h : patCJK l = some g) : g.count '.' ≤ 1 := by
  by_cases hrs : (l.takeWhile cjkNumeral).isEmpty
  · simp [patCJK, hrs] at h
  · cases hdw : l.dropWhile cjkNumeral with
    | nil => simp [patCJK, hrs, hdw] at h
    | cons c r2 =>
      by_cases hc : c = '、' || c = '.'
      · simp [patCJK, hrs, hdw, hc] at h
        subst h
        simp [List.count_append, List.count_cons,
          count_takeWhile_eq_zero (p := cjkNumeral) (a := '.') (by decide),
          count_takeWhile_eq_zero (p := isPySpace) (a := '.') (by decide)]
        split <;> omega
      · simp [patCJK, hrs, hdw, hc] at h

/-- Unfolding step for the pattern chain. -/
lemma firstPat_cons_eq (p : Txt → Option Txt) (ps : List (Txt → Option Txt))
    (t : Txt) :
    firstPat (p :: ps) t =
      match p t with
      | some g => some (0, g)
      | none => (firstPat ps t).map fun q => (q.1 + 1, q.2) := rfl

/-- When every pattern of the list yields a prefix with the property, so
does the first match. -/
lemma firstPat_all {P : Txt → Prop} :
    ∀ (pats : List (Txt → Option Txt)) (t : Txt),
      (∀ p ∈ pats, ∀ g, p t = some g → P g) →
      ∀ i g, firstPat pats t = some (i, g) → P g := by
  intro pats
  induction pats with
  | nil => intro t _ i g h; simp [firstPat] at h
  | cons p ps ih =>
    intro t hall i g h
    rw [firstPat_cons_eq] at h
    cases hp : p t with
    | some g0 =>
      rw [hp] at h
      simp only [Option.some_inj, Prod.mk.injEq] at h
      exact h.2 ▸ hall p (by simp) g0 hp
    | none =>
      rw [hp] at h
      simp only [Option.map_eq_some'] at h
      obtain ⟨⟨i1, g1⟩, hfp, heq⟩ := h
      have hg : g1 = g := by
        have := congrArg Prod.snd heq
        simpa using this
      subst hg
      exact ih t (fun q hq => hall q (by simp [hq])) i1 g1 hfp

/-- Any prefix returned by the ordered pattern list contains at most one
dot: the two-dot pattern sits behind the one-dot pattern, which matches a
prefix of everything the two-dot pattern matches. -/
lemma firstPat_numbering_dots (t : Txt) (i : Nat) (g : Txt)
    (h : firstPat numberingPats t = some (i, g)) : g.count '.' ≤ 1 := by
  rw [numberingPats] at h
  rw [firstPat_cons_eq] at h
  cases h1 : patNumDot t with
  | some g1 =>
    rw [h1] at h
    simp only [Option.some_inj, Prod.mk.injEq] at h
    exact h.2 ▸ patNumDot_dots h1
  | none =>
    rw [h1] at h
    simp only [Option.map_eq_some'] at h
    obtain ⟨⟨i1, g1⟩, hfp, heq⟩ := h
    have hg : g1 = g := by simpa using congrArg Prod.snd heq
    subst hg
    rw [firstPat_cons_eq] at hfp
    cases h2 : patNumDotNum t with
    | some g2 =>
      rw [h2] at hfp
      simp only [Option.some_inj, Prod.mk.injEq] at hfp
      exact hfp.2 ▸ patNumDotNum_dots h2
    | none =>
      rw [h2] at hfp
      simp only [Option.map_eq_some'] at hfp
      obtain ⟨⟨i2, g2⟩, hfp2, heq2⟩ := hfp
      have hg2 : g2 = g1 := by simpa using congrArg Prod.snd heq2
      subst hg2
      rw [firstPat_cons_eq, patNumDotNumDotNum_none h1] at hfp2
      simp only [Option.map_eq_some'] at hfp2
      obtain ⟨⟨i3, g3⟩, hfp3, heq3⟩ := hfp2
      have hg3 : g3 = g2 := by simpa using congrArg Prod.snd heq3
      subst hg3
      refine firstPat_all (P := fun g => g.count '.' ≤ 1) _ t ?_ i3 g3 hfp3
      intro p hp g hpg
      simp only [List.mem_cons, List.not_mem_nil, or_false] at hp
      rcases hp with rfl | rfl | rfl | rfl | rfl | rfl | rfl | rfl | rfl |
        rfl | rfl | rfl | rfl
      · exact patNumParen_dots hpg
      · exact patParenNum_dots hpg
      · exact patRunThen_dots (by decide) hpg
      · exact patRunThen_dots (by decide) hpg
      · exact patRunThen_dots (by decide) hpg
      · exact patRunThen_dots (by decide) hpg
      · exact patOneThen_dots (by decide) hpg
      · exact patOneThen_dots (by decide) hpg
      · exact patOneThen_dots (by decide) hpg
      · exact patOneThen_dots (by decide) hpg
      · exact patCJK_dots hpg
      · exact patRunThen_dots (by decide) hpg
      · exact patRunThen_dots (by decide) hpg

/-- The numbering returned by the extractor always contains at most one
dot. -/
lemma extract_numbering_dots_le_one (t : Txt) (info : NumberingInfo)
    (h : extract_multilingual_numbering t = some info) :
    info.numbering.count '.' ≤ 1 := by
  unfold extract_multilingual_numbering at h
  rw [Option.map_eq_some'] at h
  obtain ⟨⟨i, g⟩, hfp, hinfo⟩ := h
  have hnum : info.numbering = pyStrip g := by rw [← hinfo]
  rw [hnum]
  exact le_trans (count_pyStrip_le '.' g) (firstPat_numbering_dots _ i g hfp)

/-- With a numbering present the level branch can only answer H1: the dot
count is at most one. -/
lemma determineLevel_H1_of_numbering (elem : Element) (dominant : ℚ)
    (h : (extract_multilingual_numbering (pyStrip elem.text)).isSome = true) :
    _determine_header_level_multilingual elem dominant = "H1".data := by
  rw [Option.isSome_iff_exists] at h
  obtain ⟨info, hinfo⟩ := h
  simp only [_determine_header_level_multilingual, hinfo]
  by_cases hc : info.numbering.contains '.'
  · have hd := extract_numbering_dots_le_one _ _ hinfo
    have hmem : '.' ∈ info.numbering := by simpa using hc
    have hone : info.numbering.count '.' = 1 :=
      le_antisymm hd (List.count_pos_iff.mpr hmem)
    simp [hc, hone]
  · simp [hc]
    intro hmem _
    exact absurd (by simpa using hmem) hc

/-! ## Claim C10 -/

/-- C10: every numbering prefix returned by the extractor contains at most
one dot, because the single-level Arabic pattern precedes the multi-level
ones and matches a prefix of everything they match; consequently the level
branch taken when a numbering is present always answers H1, and the two-dot
and three-dot level branches are unreachable. -/
theorem claim10_theorem :
    (∀ (t : Txt) (info : NumberingInfo),
        extract_multilingual_numbering t = some info →
        info.numbering.count '.' ≤ 1) ∧
    (∀ (elem : Element) (dominant : ℚ),
        (extract_multilingual_numbering (pyStrip elem.text)).isSome = true →
        _determine_header_level_multilingual elem dominant = "H1".data) :=
  ⟨extract_numbering_dots_le_one, determineLevel_H1_of_numbering⟩

/-- Witness for C10 at the fragment 1.2.3 Overview: the extractor matches,
its numbering is the single-level prefix, and the level is H1. -/
theorem claim10_witness :
    (extract_multilingual_numbering "1.2.3 Overview".data =
      some { numbering := "1.".data, text_without_numbering := "2.3 Overview".data,
             patIdx := 0 }) ∧
    (("1.".data : Txt).count '.' ≤ 1) ∧
    _determine_header_level_multilingual elemOverview 10 = "H1".data := by
  refine ⟨by decide, ?_, ?_⟩
  · exact claim10_theorem.1 "1.2.3 Overview".data
      { numbering := "1.".data, text_without_numbering := "2.3 Overview".data,
        patIdx := 0 } (by decide)
  · exact claim10_theorem.2 elemOverview 10 (by decide)

/-! ## Claim C1 -/

/-- C1 counterexample: the fragment 1.1 Background with font size 14 over
dominant size 10 is assigned level H1, not H2 as claimed: the first
matching pattern is the single-level one, so the numbering is 1. with one
dot. -/
theorem claim1_counterexample :
    _determine_header_level_multilingual elemBackground 10 = "H1".data ∧
    ¬ _determine_header_level_multilingual elemBackground 10 = "H2".data ∧
    (extract_multilingual_numbering "1.1 Background".data).map
      NumberingInfo.numbering = some "1.".data := by
  refine ⟨by decide, by decide, by decide⟩

/-- C1 amended: in the non-form document docNumbered with dominant font 10,
the fragment 1. Introduction (font 18, bold) is accepted as a heading with
level H1 and score at least 0.5, and the fragment 1.1 Background (font 14)
is likewise assigned level H1 — the level comes from the dot count of the
numbering prefix returned by the first matching pattern, which for both
fragments is the single-level pattern with one dot. -/
theorem claim1_theorem :
    (_analyze_document_structure docNumbered).dominant_font_size = 10 ∧
    (_analyze_document_structure docNumbered).document_type ≠ "form".data ∧
    (∃ c ∈ (_analyze_document_structure docNumbered).potential_headers,
      c.text = "1. Introduction".data ∧ c.level = "H1".data ∧
      (1/2 : ℚ) ≤ c.score) ∧
    (∃ c ∈ (_analyze_document_structure docNumbered).potential_headers,
      c.text = "1.1 Background".data ∧ c.level = "H1".data) := by
  refine ⟨by decide, by decide, by decide, by decide⟩

/-! ## Claim C3 -/

/-- C3: a document whose profile classifies as form yields an empty
outline, whatever its fragments are. -/
theorem claim3_theorem (pages : List (List RawSpan)) (metaTitle : Option Txt)
    (docName : Txt)
    (h : (_analyze_document_structure pages).document_type = "form".data) :
    (extractStructureCore pages metaTitle docName).outline = [] := by
  unfold extractStructureCore
  unfold _extract_headers_from_structure
  simp [h]

/-- Witness for C3 at the colon-label document docForm. -/
theorem claim3_witness :
    (_analyze_document_structure docForm).document_type = "form".data ∧
    (extractStructureCore docForm none "file01.pdf".data).outline = [] :=
  ⟨by decide, claim3_theorem docForm none "file01.pdf".data (by decide)⟩

/-! ## Claim C6 -/

/-- C6: the extraction call never lets an exception past its boundary (the
embedding is a total function); a missing document yields the
File-not-found sentinel with an empty outline, and an exception raised
inside the try block yields the Error sentinel with the message appended
and an empty outline. -/
theorem claim6_theorem (fileExists : Bool)
    (body : Except Txt (Txt × List HeaderInfo)) :
    (fileExists = false →
      extract_structure fileExists body =
        { title := "File not found".data, outline := [] }) ∧
    (∀ msg, fileExists = true → body = Except.error msg →
      extract_structure fileExists body =
        { title := "Error: ".data ++ msg, outline := [] }) := by
  constructor
  · intro h
    subst h
    rfl
  · intro msg he hb
    subst he
    subst hb
    rfl

/-- Witness for C6: both failure paths at concrete inputs. -/
theorem claim6_witness :
    extract_structure false (Except.ok ("t".data, [])) =
      { title := "File not found".data, outline := [] } ∧
    extract_structure true (Except.error "boom".data) =
      { title := "Error: boom".data, outline := [] } := by
  constructor
  · exact (claim6_theorem false (Except.ok ("t".data, []))).1 rfl
  · exact (claim6_theorem true (Except.error "boom".data)).2 "boom".data rfl rfl

/-! ## Claim C8 -/

/-- C8 counterexample: a metadata title of length exactly 3 is not returned
verbatim — the bound in the source is strict — so the selector falls back
to the cleaned filename. -/
theorem claim8_counterexample :
    (pyStrip "abc".data).length = 3 ∧
    _extract_title_from_structure (some "abc".data) [] "report.pdf".data =
      "Report".data ∧
    ¬ _extract_title_from_structure (some "abc".data) [] "report.pdf".data =
      "abc".data := by
  refine ⟨by decide, by decide, by decide⟩

/-- C8 amended: a truthy metadata title whose stripped length is strictly
greater than 3 and strictly less than 300 is returned verbatim (trimmed),
taking priority over every candidate list and filename. -/
theorem claim8_theorem (t : Txt) (cands : List TitleCand) (docName : Txt)
    (hne : t ≠ []) (hlo : 3 < (pyStrip t).length) (hhi : (pyStrip t).length < 300) :
    _extract_title_from_structure (some t) cands docName = pyStrip t := by
  unfold _extract_title_from_structure
  simp [hne, hlo, hhi]

/-- Witness for C8 at the metadata title Annual Report 2024 with a
higher-scoring first-page candidate present. -/
theorem claim8_witness :
    ("Annual Report 2024".data ≠ ([] : Txt)) ∧
    3 < (pyStrip "Annual Report 2024".data).length ∧
    (pyStrip "Annual Report 2024".data).length < 300 ∧
    _extract_title_from_structure (some "Annual Report 2024".data)
      [{ text := "HUGE FONT LINE".data, score := 9 }] "f.pdf".data =
      pyStrip "Annual Report 2024".data :=
  ⟨by decide, by decide, by decide,
   claim8_theorem ("Annual Report 2024".data)
     [{ text := "HUGE FONT LINE".data, score := 9 }] "f.pdf".data
     (by decide) (by decide) (by decide)⟩

/-! ## Lemmas about the sort, the deduplication walk and the score -/

lemma mem_insertSorted {A : Type} (le : A → A → Bool) (a x : A) :
    ∀ l : List A, x ∈ insertSorted le a l ↔ x = a ∨ x ∈ l := by
  intro l
  induction l with
  | nil => simp [insertSorted]
  | cons b rest ih =>
    simp only [insertSorted]
    split
    · simp only [List.mem_cons, ih]
      tauto
    · simp

lemma mem_pySorted {A : Type} (le : A → A → Bool) (l : List A) (x : A) :
    x ∈ pySorted le l ↔ x ∈ l := by
  suffices h : ∀ acc : List A,
      x ∈ l.foldl (fun acc a => insertSorted le a acc) acc ↔ x ∈ acc ∨ x ∈ l by
    simpa [pySorted] using h []
  induction l with
  | nil => simp
  | cons b rest ih =>
    intro acc
    simp only [List.foldl_cons]
    rw [ih]
    simp [mem_insertSorted]
    tauto

lemma ratMax_le {a b c : ℚ} (ha : a ≤ c) (hb : b ≤ c) : ratMax a b ≤ c := by
  unfold ratMax
  split <;> assumption

lemma le_ratMax_left (a b : ℚ) : a ≤ ratMax a b := by
  unfold ratMax
  split
  · assumption
  · exact le_refl a

lemma ratMin_le_right (a b : ℚ) : ratMin a b ≤ b := by
  unfold ratMin
  split
  · assumption
  · exact le_refl b

/-- The clamped score always lies in the unit interval. -/
lemma calc_score_bounds (text : Txt) (fs : ℚ) (b : Bool) (dom : ℚ) :
    0 ≤ calculate_multilingual_header_score text fs b dom ∧
    calculate_multilingual_header_score text fs b dom ≤ 1 := by
  unfold calculate_multilingual_header_score
  split
  · norm_num
  · exact ⟨le_ratMax_left 0 _, ratMax_le (by norm_num) (ratMin_le_right _ 1)⟩

/-- The level function only ever answers one of the four levels. -/
lemma determineLevel_mem (elem : Element) (dom : ℚ) :
    _determine_header_level_multilingual elem dom = "H1".data ∨
    _determine_header_level_multilingual elem dom = "H2".data ∨
    _determine_header_level_multilingual elem dom = "H3".data ∨
    _determine_header_level_multilingual elem dom = "H4".data := by
  unfold _determine_header_level_multilingual
  cases h : extract_multilingual_numbering (pyStrip elem.text) with
  | none => simp only [h]; split_ifs <;> simp
  | some info => simp only [h]; split_ifs <;> simp

/-- Everything the scorer accepts carries a score of at least one half,
clamped to the unit interval, and one of the four levels. -/
lemma mem_potential_headers {elems : List Element} {dom : ℚ} {dt : Txt}
    {c : HeadingCand}
    (hc : c ∈ _find_potential_headers_multilingual elems dom dt) :
    (1/2 : ℚ) ≤ c.score ∧ 0 ≤ c.score ∧ c.score ≤ 1 ∧
    (c.level = "H1".data ∨ c.level = "H2".data ∨ c.level = "H3".data ∨
      c.level = "H4".data) := by
  unfold _find_potential_headers_multilingual at hc
  by_cases hdt : dt = "form".data
  · simp [hdt] at hc
  · rw [if_neg hdt] at hc
    rw [List.mem_filterMap] at hc
    obtain ⟨elem, _, heq⟩ := hc
    simp only at heq
    split at heq
    · exact absurd heq (by simp)
    · split at heq
      · exact absurd heq (by simp)
      · split at heq
        · rename_i hs
          rw [Option.some_inj] at heq
          subst heq
          have hb := calc_score_bounds (pyStrip elem.text) elem.font_size
            elem.is_bold dom
          refine ⟨by simpa using hs, hb.1, hb.2, ?_⟩
          simpa using determineLevel_mem elem dom
        · exact absurd heq (by simp)

/-- The analysis record exposes the scorer output unchanged. -/
lemma analyze_potential_headers (pages : List (List RawSpan)) :
    (_analyze_document_structure pages).potential_headers =
      _find_potential_headers_multilingual (allTextElements pages)
        (_analyze_document_structure pages).dominant_font_size
        (_analyze_document_structure pages).document_type := rfl

/-- The walk only skips or re-emits its input candidates. -/
lemma dedupWalk_mem_src :
    ∀ (l : List HeadingCand) (seen : List Txt), ∀ e ∈ dedupWalk seen l,
      ∃ c ∈ l, e = { level := c.level, text := c.text, page := c.page,
                     language := some c.language_info.script } := by
  intro l
  induction l with
  | nil => intro seen e he; simp [dedupWalk] at he
  | cons h rest ih =>
    intro seen e he
    simp only [dedupWalk] at he
    split at he
    · obtain ⟨c, hc, hec⟩ := ih seen e he
      exact ⟨c, List.mem_cons_of_mem _ hc, hec⟩
    · split at he
      · obtain ⟨c, hc, hec⟩ := ih seen e he
        exact ⟨c, List.mem_cons_of_mem _ hc, hec⟩
      · rcases List.mem_cons.mp he with rfl | he'
        · exact ⟨h, List.mem_cons_self h rest, rfl⟩
        · obtain ⟨c, hc, hec⟩ := ih _ e he'
          exact ⟨c, List.mem_cons_of_mem _ hc, hec⟩

/-- The walk never emits a key it has seen, and the emitted keys are
pairwise distinct. -/
lemma dedupWalk_key_spec :
    ∀ (l : List HeadingCand) (seen : List Txt),
      (∀ e ∈ dedupWalk seen l, normalize_text (pyLower e.text) ∉ seen) ∧
      (dedupWalk seen l).Pairwise (fun a b =>
        normalize_text (pyLower a.text) ≠ normalize_text (pyLower b.text)) := by
  intro l
  induction l with
  | nil => intro seen; simp [dedupWalk]
  | cons h rest ih =>
    intro seen
    simp only [dedupWalk]
    by_cases h1 : seen.contains (normalize_text (pyLower h.text))
    · simp only [h1, if_true]
      exact ih seen
    · by_cases h2 : (normalize_text (pyLower h.text)).length < 2
      · simp only [h1, Bool.false_eq_true, if_false, h2, if_true]
        exact ih seen
      · simp only [h1, Bool.false_eq_true, if_false, h2, if_true]
        constructor
        · intro e he
          rcases List.mem_cons.mp he with rfl | he'
          · intro hc
            exact h1 (by simpa using hc)
          · intro hc
            exact (ih _).1 e he' (List.mem_cons_of_mem _ hc)
        · refine List.Pairwise.cons ?_ (ih _).2
          intro b hb heq
          exact (ih _).1 b hb (heq ▸ List.mem_cons_self _ _)

/-! ## Claim C2 -/

/-- C2: the Outline Assembler — sort by page ascending then score
descending, walk skipping seen or too-short normalized-lowercase texts,
truncate to forty — always emits at most forty entries, and no two entries
share the same normalized-lowercase text. -/
theorem claim2_theorem (analysis : Analysis) :
    (_extract_headers_from_structure analysis).length ≤ 40 ∧
    (_extract_headers_from_structure analysis).Pairwise (fun a b =>
      normalize_text (pyLower a.text) ≠ normalize_text (pyLower b.text)) := by
  unfold _extract_headers_from_structure
  by_cases hform : analysis.document_type = "form".data
  · simp [hform]
  · simp only [hform, if_false]
    constructor
    · split <;> exact List.length_take_le 40 _
    · split <;>
      exact List.Pairwise.sublist (List.take_sublist 40 _)
        (dedupWalk_key_spec _ []).2

/-! ## Claim C4 -/

/-- C4: every outline entry is backed by a heading candidate whose clamped
score lies in the unit interval, is at least one half, and is at least
seven tenths when the document profile is simple_document. -/
theorem claim4_theorem (pages : List (List RawSpan)) (metaTitle : Option Txt)
    (docName : Txt) :
    ∀ e ∈ (extractStructureCore pages metaTitle docName).outline,
      ∃ c ∈ (_analyze_document_structure pages).potential_headers,
        c.text = e.text ∧ c.page = e.page ∧ c.level = e.level ∧
        0 ≤ c.score ∧ c.score ≤ 1 ∧ (1/2 : ℚ) ≤ c.score ∧
        ((_analyze_document_structure pages).document_type =
            "simple_document".data → (7/10 : ℚ) ≤ c.score) := by
  intro e he
  have houtline : (extractStructureCore pages metaTitle docName).outline =
      _extract_headers_from_structure (_analyze_document_structure pages) := rfl
  rw [houtline] at he
  set analysis := _analyze_document_structure pages with hana
  unfold _extract_headers_from_structure at he
  by_cases hform : analysis.document_type = "form".data
  · simp [hform] at he
  · rw [if_neg hform] at he
    have he' := (List.take_sublist 40 _).subset he
    obtain ⟨c, hcmem, hec⟩ := dedupWalk_mem_src _ [] e he'
    rw [mem_pySorted] at hcmem
    have hcph : c ∈ analysis.potential_headers ∧
        (analysis.document_type = "simple_document".data →
          (7/10 : ℚ) ≤ c.score) := by
      by_cases hsimple : analysis.document_type = "simple_document".data
      · rw [if_pos hsimple] at hcmem
        rw [List.mem_filter] at hcmem
        exact ⟨hcmem.1, fun _ => by simpa using hcmem.2⟩
      · rw [if_neg hsimple] at hcmem
        exact ⟨hcmem, fun hcontra => absurd hcontra hsimple⟩
    have hbounds := mem_potential_headers
      (analyze_potential_headers pages ▸ hcph.1)
    refine ⟨c, hcph.1, ?_, ?_, ?_, hbounds.2.1, hbounds.2.2.1, hbounds.1,
      hcph.2⟩
    · rw [hec]
    · rw [hec]
    · rw [hec]

/-- Witness for C4 at the simple document docSimple, whose single outline
entry passes the raised threshold. -/
theorem claim4_witness :
    (({ level := "H1".data, text := "1. Introduction".data, page := 1,
        language := some "latin".data } : HeaderInfo) ∈
      (extractStructureCore docSimple none "f.pdf".data).outline) ∧
    (∃ c ∈ (_analyze_document_structure docSimple).potential_headers,
        c.text = "1. Introduction".data ∧ c.page = 1 ∧ c.level = "H1".data ∧
        0 ≤ c.score ∧ c.score ≤ 1 ∧ (1/2 : ℚ) ≤ c.score ∧
        ((_analyze_document_structure docSimple).document_type =
            "simple_document".data → (7/10 : ℚ) ≤ c.score)) :=
  ⟨by decide, claim4_theorem docSimple none "f.pdf".data
    { level := "H1".data, text := "1. Introduction".data, page := 1,
      language := some "latin".data } (by decide)⟩

/-! ## Claim C5 -/

/-- C5 counterexample: an emitted outline entry carries a fourth key,
language, beside level, text and page — the claimed exact three-field shape
is violated. -/
theorem claim5_counterexample :
    ∃ e ∈ (extractStructureCore docSimple none "f.pdf".data).outline,
      ¬ headerInfoKeys e = ["level".data, "text".data, "page".data] := by
  decide

/-- C5 amended: every outline entry populates level (one of H1 to H4, hence
within H1 to H6), text and page, and additionally always carries a language
key holding the detected script, so its keys are exactly level, text, page,
language. -/
theorem claim5_theorem (pages : List (List RawSpan)) (metaTitle : Option Txt)
    (docName : Txt) :
    ∀ e ∈ (extractStructureCore pages metaTitle docName).outline,
      (e.level = "H1".data ∨ e.level = "H2".data ∨ e.level = "H3".data ∨
        e.level = "H4".data) ∧
      e.language.isSome = true ∧
      headerInfoKeys e =
        ["level".data, "text".data, "page".data, "language".data] := by
  intro e he
  have houtline : (extractStructureCore pages metaTitle docName).outline =
      _extract_headers_from_structure (_analyze_document_structure pages) := rfl
  rw [houtline] at he
  set analysis := _analyze_document_structure pages with hana
  unfold _extract_headers_from_structure at he
  by_cases hform : analysis.document_type = "form".data
  · simp [hform] at he
  · rw [if_neg hform] at he
    have he' := (List.take_sublist 40 _).subset he
    obtain ⟨c, hcmem, hec⟩ := dedupWalk_mem_src _ [] e he'
    rw [mem_pySorted] at hcmem
    have hcph : c ∈ analysis.potential_headers := by
      by_cases hsimple : analysis.document_type = "simple_document".data
      · rw [if_pos hsimple] at hcmem
        exact (List.mem_filter.mp hcmem).1
      · rw [if_neg hsimple] at hcmem
        exact hcmem
    have hbounds := mem_potential_headers
      (analyze_potential_headers pages ▸ hcph)
    subst hec
    exact ⟨hbounds.2.2.2, rfl, by simp [headerInfoKeys]⟩

/-- Witness for C5 at the same concrete document: the single entry has the
four keys. -/
theorem claim5_witness :
    (({ level := "H1".data, text := "1. Introduction".data, page := 1,
        language := some "latin".data } : HeaderInfo) ∈
      (extractStructureCore docSimple none "f.pdf".data).outline) ∧
    ((("H1".data : Txt) = "H1".data ∨ ("H1".data : Txt) = "H2".data ∨
        ("H1".data : Txt) = "H3".data ∨ ("H1".data : Txt) = "H4".data) ∧
      (some "latin".data).isSome = true ∧
      headerInfoKeys
          (⟨"H1".data, "1. Introduction".data, 1, some "latin".data⟩ :
            HeaderInfo) =
        ["level".data, "text".data, "page".data, "language".data]) :=
  ⟨by decide, claim5_theorem docSimple none "f.pdf".data
    { level := "H1".data, text := "1. Introduction".data, page := 1,
      language := some "latin".data } (by decide)⟩

/-! ## Lemmas about the first-maximum fold and the script detector -/

lemma firstMaxBy_snd_ge {α : Type} :
    ∀ (l : List (α × Nat)) (init : α × Nat),
      init.2 ≤ (firstMaxBy init l).2 ∧ ∀ p ∈ l, p.2 ≤ (firstMaxBy init l).2 := by
  intro l
  induction l with
  | nil => intro init; exact ⟨le_refl _, by simp⟩
  | cons p rest ih =>
    intro init
    simp only [firstMaxBy]
    by_cases h : init.2 < p.2
    · rw [if_pos h]
      obtain ⟨h1, h2⟩ := ih p
      refine ⟨le_trans (le_of_lt h) h1, ?_⟩
      intro q hq
      rcases List.mem_cons.mp hq with rfl | hq'
      · exact h1
      · exact h2 q hq'
    · rw [if_neg h]
      obtain ⟨h1, h2⟩ := ih init
      refine ⟨h1, ?_⟩
      intro q hq
      rcases List.mem_cons.mp hq with rfl | hq'
      · exact le_trans (Nat.le_of_not_lt h) h1
      · exact h2 q hq'

/-- The Python maximum keeps the first entry attaining the greatest value:
either nothing beats the initial entry, or the result appears in the list
strictly after only smaller-valued entries. -/
lemma firstMaxBy_split {α : Type} :
    ∀ (l : List (α × Nat)) (init : α × Nat),
      firstMaxBy init l = init ∨
      ∃ l₁ l₂, l = l₁ ++ firstMaxBy init l :: l₂ ∧
        init.2 < (firstMaxBy init l).2 ∧
        ∀ p ∈ l₁, p.2 < (firstMaxBy init l).2 := by
  intro l
  induction l with
  | nil => intro init; left; rfl
  | cons p rest ih =>
    intro init
    simp only [firstMaxBy]
    by_cases h : init.2 < p.2
    · rw [if_pos h]
      rcases ih p with heq | ⟨l₁, l₂, hsplit, hlt, hall⟩
      · right
        refine ⟨[], rest, ?_, ?_, by simp⟩
        · simp [heq]
        · rw [heq]; exact h
      · right
        refine ⟨p :: l₁, l₂, ?_, lt_trans h hlt, ?_⟩
        · rw [List.cons_append, ← hsplit]
        · intro q hq
          rcases List.mem_cons.mp hq with rfl | hq'
          · exact hlt
          · exact hall q hq'
    · rw [if_neg h]
      rcases ih init with heq | ⟨l₁, l₂, hsplit, hlt, hall⟩
      · left; exact heq
      · right
        refine ⟨p :: l₁, l₂, ?_, hlt, ?_⟩
        · rw [List.cons_append, ← hsplit]
        · intro q hq
          rcases List.mem_cons.mp hq with rfl | hq'
          · exact lt_of_le_of_lt (Nat.le_of_not_lt h) hlt
          · exact hall q hq'

lemma foldl_max_ge : ∀ (ns : List Nat) (a : Nat),
    a ≤ ns.foldl Nat.max a ∧ ∀ x ∈ ns, x ≤ ns.foldl Nat.max a := by
  intro ns
  induction ns with
  | nil => intro a; exact ⟨le_refl _, by simp⟩
  | cons n rest ih =>
    intro a
    simp only [List.foldl_cons]
    obtain ⟨h1, h2⟩ := ih (Nat.max a n)
    refine ⟨le_trans (Nat.le_max_left a n) h1, ?_⟩
    intro x hx
    rcases List.mem_cons.mp hx with rfl | hx'
    · exact le_trans (Nat.le_max_right a x) h1
    · exact h2 x hx'

lemma foldl_max_le : ∀ (ns : List Nat) (a b : Nat),
    a ≤ b → (∀ x ∈ ns, x ≤ b) → ns.foldl Nat.max a ≤ b := by
  intro ns
  induction ns with
  | nil => intro a b ha _; exact ha
  | cons n rest ih =>
    intro a b ha hall
    simp only [List.foldl_cons]
    exact ih _ b (Nat.max_le.mpr ⟨ha, hall n (by simp)⟩)
      (fun x hx => hall x (List.mem_cons_of_mem _ hx))

lemma le_maxCount_of_mem {l : List (Txt × Nat)} {p : Txt × Nat}
    (hp : p ∈ l) : p.2 ≤ maxCount l :=
  (foldl_max_ge (l.map Prod.snd) 0).2 p.2 (List.mem_map_of_mem Prod.snd hp)

lemma maxCount_le_of_all {l : List (Txt × Nat)} {b : Nat}
    (hall : ∀ p ∈ l, p.2 ≤ b) : maxCount l ≤ b := by
  refine foldl_max_le (l.map Prod.snd) 0 b (Nat.zero_le b) ?_
  intro x hx
  obtain ⟨p, hp, rfl⟩ := List.mem_map.mp hx
  exact hall p hp

/-- The hiragana score looked up in the table is the hiragana character
count. -/
lemma lookup_hiragana (st : Txt) :
    lookupCount "japanese_hiragana".data (scriptScores st) =
      countP hiraganaChar st := rfl

/-- The katakana score looked up in the table is the katakana character
count. -/
lemma lookup_katakana (st : Txt) :
    lookupCount "japanese_katakana".data (scriptScores st) =
      countP katakanaChar st := rfl

/-- No entry of the score table is named unknown or japanese. -/
lemma scriptScores_names (st : Txt) :
    ∀ p ∈ scriptScores st, p.1 ≠ "unknown".data ∧ p.1 ≠ "japanese".data := by
  intro p hp
  have hmem : p.1 ∈ (["latin".data, "cyrillic".data, "arabic".data,
      "chinese".data, "japanese_hiragana".data, "japanese_katakana".data,
      "japanese_kanji".data, "korean".data, "devanagari".data, "thai".data,
      "hebrew".data] : List Txt) := by
    simp only [scriptScores, List.mem_cons, List.not_mem_nil, or_false] at hp
    rcases hp with rfl | rfl | rfl | rfl | rfl | rfl | rfl | rfl | rfl | rfl |
      rfl <;> simp
  have hall : ∀ n ∈ (["latin".data, "cyrillic".data, "arabic".data,
      "chinese".data, "japanese_hiragana".data, "japanese_katakana".data,
      "japanese_kanji".data, "korean".data, "devanagari".data, "thai".data,
      "hebrew".data] : List Txt),
      n ≠ "unknown".data ∧ n ≠ "japanese".data := by decide
  exact hall p.1 hmem

/-- The first-maximum over the score table starts at the latin entry. -/
lemma pyMaxKey_scriptScores (st : Txt) :
    pyMaxKeyByVal (scriptScores st) =
      (firstMaxBy ("latin".data, countP latinChar st)
        ((scriptScores st).tail)).1 := rfl

/-- On non-empty stripped text with some match, any hiragana or katakana
forces the answer japanese. -/
lemma detect_japanese (t : Txt) (hstrip : ¬ pyStrip t = [])
    (hmax : ¬ maxCount (scriptScores (pyStrip t)) = 0)
    (hjk : 0 < countP hiraganaChar (pyStrip t) ∨
      0 < countP katakanaChar (pyStrip t)) :
    detect_text_language t = "japanese".data := by
  have ht : ¬ t = [] := fun h => hstrip (by rw [h]; rfl)
  simp only [detect_text_language]
  rw [lookup_hiragana, lookup_katakana]
  rcases hjk with h | h <;> simp [ht, hstrip, hmax, h]

/-- On non-empty stripped text with some match and no kana, the answer is
the first key of greatest count. -/
lemma detect_primary (t : Txt) (hstrip : ¬ pyStrip t = [])
    (hmax : ¬ maxCount (scriptScores (pyStrip t)) = 0)
    (hjk : ¬ (0 < countP hiraganaChar (pyStrip t) ∨
      0 < countP katakanaChar (pyStrip t))) :
    detect_text_language t =
      (firstMaxBy ("latin".data, countP latinChar (pyStrip t))
        ((scriptScores (pyStrip t)).tail)).1 := by
  have ht : ¬ t = [] := fun h => hstrip (by rw [h]; rfl)
  push_neg at hjk
  obtain ⟨h1, h2⟩ := hjk
  simp only [detect_text_language]
  rw [lookup_hiragana, lookup_katakana, pyMaxKey_scriptScores]
  simp [ht, hstrip, hmax, Nat.le_zero.mp h1, Nat.le_zero.mp h2]

/-- The first maximum of a non-empty list is one of its entries. -/
lemma firstMaxBy_mem_cons {α : Type} (p0 : α × Nat) (tl : List (α × Nat)) :
    firstMaxBy p0 tl ∈ p0 :: tl := by
  obtain ⟨r, hrdef⟩ : ∃ r, firstMaxBy p0 tl = r := ⟨_, rfl⟩
  rw [hrdef]
  rcases firstMaxBy_split tl p0 with heq | ⟨l₁, l₂, hsp, _, _⟩
  · rw [hrdef] at heq
    rw [heq]
    exact List.mem_cons_self _ _
  · rw [hrdef] at hsp
    rw [hsp]
    simp

/-- A non-empty list splits around its first maximum, with strictly smaller
values before it. -/
lemma cons_split_of_firstMaxBy {α : Type} (p0 : α × Nat)
    (tl : List (α × Nat)) :
    ∃ l₁ l₂, p0 :: tl = l₁ ++ firstMaxBy p0 tl :: l₂ ∧
      ∀ p ∈ l₁, p.2 < (firstMaxBy p0 tl).2 := by
  obtain ⟨r, hrdef⟩ : ∃ r, firstMaxBy p0 tl = r := ⟨_, rfl⟩
  rw [hrdef]
  rcases firstMaxBy_split tl p0 with heq | ⟨l₁, l₂, hsp, hlt, hall⟩
  · rw [hrdef] at heq
    refine ⟨[], tl, ?_, by simp⟩
    rw [heq, List.nil_append]
  · rw [hrdef] at hsp hlt hall
    refine ⟨p0 :: l₁, l₂, ?_, ?_⟩
    · rw [hsp, List.cons_append]
    · intro p hp
      rcases List.mem_cons.mp hp with rfl | hp'
      · exact hlt
      · exact hall p hp'

/-! ## Claim C7 -/

/-- C7 counterexample: on the single CJK character the chinese and kanji
patterns tie for the highest count, there is no hiragana or katakana, and
the detector answers chinese — the first of the tied scripts in pattern
order — not unknown as claimed. -/
theorem claim7_counterexample :
    countP chineseChar (pyStrip "中".data) =
      countP kanjiChar (pyStrip "中".data) ∧
    maxCount (scriptScores (pyStrip "中".data)) =
      countP chineseChar (pyStrip "中".data) ∧
    0 < countP chineseChar (pyStrip "中".data) ∧
    countP hiraganaChar (pyStrip "中".data) = 0 ∧
    countP katakanaChar (pyStrip "中".data) = 0 ∧
    detect_text_language "中".data = "chinese".data ∧
    ¬ detect_text_language "中".data = "unknown".data := by
  refine ⟨by decide, by decide, by decide, by decide, by decide, by decide,
    by decide⟩

/-- C7 amended: the detector answers unknown exactly when the stripped text
is empty or no pattern matches any character; any hiragana or katakana
match forces japanese; otherwise the answer is a script attaining the
highest character count, and precisely the first such script in the fixed
pattern order — every entry placed before it in the table scores strictly
less, so ties resolve to the earlier script rather than to unknown. -/
theorem claim7_theorem (t : Txt) :
    ((pyStrip t = [] ∨ maxCount (scriptScores (pyStrip t)) = 0) →
        detect_text_language t = "unknown".data) ∧
    (detect_text_language t = "unknown".data →
        pyStrip t = [] ∨ maxCount (scriptScores (pyStrip t)) = 0) ∧
    (¬ pyStrip t = [] →
      (0 < countP hiraganaChar (pyStrip t) ∨
        0 < countP katakanaChar (pyStrip t)) →
      detect_text_language t = "japanese".data) ∧
    (¬ detect_text_language t = "unknown".data →
      ¬ detect_text_language t = "japanese".data →
      ∃ l₁ l₂, scriptScores (pyStrip t) =
          l₁ ++ (detect_text_language t,
            maxCount (scriptScores (pyStrip t))) :: l₂ ∧
        ∀ p ∈ l₁, p.2 < maxCount (scriptScores (pyStrip t))) := by
  by_cases hstrip : pyStrip t = []
  · have hd : detect_text_language t = "unknown".data := by
      simp [detect_text_language, hstrip]
    exact ⟨fun _ => hd, fun _ => Or.inl hstrip,
      fun hne _ => absurd hstrip hne, fun hne _ => absurd hd hne⟩
  · have ht : ¬ t = [] := fun h => hstrip (by rw [h]; rfl)
    by_cases hmax : maxCount (scriptScores (pyStrip t)) = 0
    · have hd : detect_text_language t = "unknown".data := by
        simp [detect_text_language, hstrip, ht, hmax]
      refine ⟨fun _ => hd, fun _ => Or.inr hmax, ?_, fun hne _ => absurd hd hne⟩
      intro _ hjk
      exfalso
      have hh : ("japanese_hiragana".data, countP hiraganaChar (pyStrip t)) ∈
          scriptScores (pyStrip t) := by simp [scriptScores]
      have hk : ("japanese_katakana".data, countP katakanaChar (pyStrip t)) ∈
          scriptScores (pyStrip t) := by simp [scriptScores]
      rcases hjk with h | h
      · have hle := le_maxCount_of_mem hh
        simp only at hle
        omega
      · have hle := le_maxCount_of_mem hk
        simp only at hle
        omega
    · by_cases hjk : 0 < countP hiraganaChar (pyStrip t) ∨
          0 < countP katakanaChar (pyStrip t)
      · have hd := detect_japanese t hstrip hmax hjk
        refine ⟨?_, ?_, fun _ _ => hd, fun _ hne2 => absurd hd hne2⟩
        · intro h
          rcases h with h | h
          · exact absurd h hstrip
          · exact absurd h hmax
        · intro h
          rw [hd] at h
          exact absurd h (by decide)
      · have hd := detect_primary t hstrip hmax hjk
        have hcons : scriptScores (pyStrip t) =
            ("latin".data, countP latinChar (pyStrip t)) ::
              (scriptScores (pyStrip t)).tail := rfl
        have hge := firstMaxBy_snd_ge ((scriptScores (pyStrip t)).tail)
          ("latin".data, countP latinChar (pyStrip t))
        have hallle : ∀ p ∈ scriptScores (pyStrip t),
            p.2 ≤ (firstMaxBy ("latin".data, countP latinChar (pyStrip t))
              ((scriptScores (pyStrip t)).tail)).2 := by
          intro p hp
          rw [hcons] at hp
          rcases List.mem_cons.mp hp with rfl | hp'
          · exact hge.1
          · exact hge.2 p hp'
        have hrmem : firstMaxBy ("latin".data, countP latinChar (pyStrip t))
            ((scriptScores (pyStrip t)).tail) ∈ scriptScores (pyStrip t) := by
          rw [hcons]
          exact firstMaxBy_mem_cons _ _
        have hrmax : (firstMaxBy ("latin".data, countP latinChar (pyStrip t))
            ((scriptScores (pyStrip t)).tail)).2 =
              maxCount (scriptScores (pyStrip t)) :=
          le_antisymm (le_maxCount_of_mem hrmem) (maxCount_le_of_all hallle)
        have hrname := scriptScores_names (pyStrip t) _ hrmem
        refine ⟨?_, ?_, fun _ h => absurd h hjk, ?_⟩
        · intro h
          rcases h with h | h
          · exact absurd h hstrip
          · exact absurd h hmax
        · intro h
          rw [hd] at h
          exact absurd h hrname.1
        · intro _ _
          have hpair : (detect_text_language t,
              maxCount (scriptScores (pyStrip t))) =
              firstMaxBy ("latin".data, countP latinChar (pyStrip t))
                ((scriptScores (pyStrip t)).tail) := by
            rw [hd, ← hrmax]
          obtain ⟨l₁, l₂, hsp, hall⟩ := cons_split_of_firstMaxBy
            ("latin".data, countP latinChar (pyStrip t))
            ((scriptScores (pyStrip t)).tail)
          refine ⟨l₁, l₂, ?_, ?_⟩
          · rw [hpair, hcons]
            exact hsp
          · intro p hp
            rw [← hrmax]
            exact hall p hp

/-- Witness for C7 at a Latin text: the detector is not unknown and not
japanese, and the latin entry heads the split with the maximal count. -/
theorem claim7_witness :
    (¬ detect_text_language "hello".data = "unknown".data) ∧
    (¬ detect_text_language "hello".data = "japanese".data) ∧
    (∃ l₁ l₂, scriptScores (pyStrip "hello".data) =
        l₁ ++ (detect_text_language "hello".data,
          maxCount (scriptScores (pyStrip "hello".data))) :: l₂ ∧
      ∀ p ∈ l₁, p.2 < maxCount (scriptScores (pyStrip "hello".data))) :=
  ⟨by decide, by decide,
    (claim7_theorem ("hello".data)).2.2.2 (by decide) (by decide)⟩

/-! ## Lemmas about the normalizer -/

lemma decompAll_id {l : Txt} (h : ∀ c ∈ l, (canonDecomp c).isNone = true) :
    decompAll l = l := by
  induction l with
  | nil => rfl
  | cons c rest ih =>
    have hc := h c (by simp)
    rw [Option.isNone_iff_eq_none] at hc
    have ih' := ih fun c hc' => h c (List.mem_cons_of_mem _ hc')
    simp only [decompAll, List.flatMap_cons, hc, Option.getD_none] at ih' ⊢
    rw [ih']
    rfl

lemma canonicalOrderAux_id {l : Txt} (h : ∀ c ∈ l, ccc c = 0) :
    canonicalOrderAux [] l = l := by
  induction l with
  | nil => rfl
  | cons c rest ih =>
    have hc := h c (by simp)
    simp only [canonicalOrderAux, hc, if_true, sortRun, List.reverse_nil,
      List.nil_append]
    rw [ih fun c hc' => h c (List.mem_cons_of_mem _ hc')]

lemma nfd_id {l : Txt} (hdec : ∀ c ∈ l, (canonDecomp c).isNone = true)
    (hccc : ∀ c ∈ l, ccc c = 0) : nfd l = l := by
  unfold nfd canonicalOrder
  rw [decompAll_id hdec]
  exact canonicalOrderAux_id hccc

lemma removeZeroWidth_id {l : Txt} (h : ∀ c ∈ l, isZeroWidth c = false) :
    removeZeroWidth l = l := by
  unfold removeZeroWidth
  rw [List.filter_eq_self]
  intro c hc
  simp [h c hc]

lemma collapseWsAux_cons_sp_t {a : Char} {rest : Txt} (ha : isPySpace a = true) :
    collapseWsAux true (a :: rest) = collapseWsAux true rest := by
  simp [collapseWsAux, ha]

lemma collapseWsAux_cons_sp_f {a : Char} {rest : Txt} (ha : isPySpace a = true) :
    collapseWsAux false (a :: rest) = ' ' :: collapseWsAux true rest := by
  simp [collapseWsAux, ha]

lemma collapseWsAux_cons_ns {prev : Bool} {a : Char} {rest : Txt}
    (ha : isPySpace a = false) :
    collapseWsAux prev (a :: rest) = a :: collapseWsAux false rest := by
  simp [collapseWsAux, ha]

/-- The collapse keeps only original characters or the plain space, leaves
no two adjacent whitespace characters, writes every whitespace as the plain
space, and, when the previous character was whitespace, starts with a
non-space character. -/
lemma collapseWsAux_props : ∀ (l : Txt) (prev : Bool),
    (∀ c ∈ collapseWsAux prev l, c ∈ l ∨ c = ' ') ∧
    blanksOk (collapseWsAux prev l) ∧
    spacedOk (collapseWsAux prev l) ∧
    (prev = true → ∀ c, (collapseWsAux prev l).head? = some c →
      isPySpace c = false) := by
  intro l
  induction l with
  | nil =>
    intro prev
    refine ⟨by simp [collapseWsAux], ?_, ?_, ?_⟩
    · intro c hc
      simp [collapseWsAux] at hc
    · simp [collapseWsAux, spacedOk]
    · intro _ c hc
      simp [collapseWsAux] at hc
  | cons a rest ih =>
    intro prev
    by_cases ha : isPySpace a = true
    · cases prev with
      | true =>
        obtain ⟨h1, h2, h3, h4⟩ := ih true
        rw [collapseWsAux_cons_sp_t ha]
        refine ⟨?_, h2, h3, fun _ => h4 rfl⟩
        intro c hc
        rcases h1 c hc with hin | hsp
        · exact Or.inl (List.mem_cons_of_mem _ hin)
        · exact Or.inr hsp
      | false =>
        obtain ⟨h1, h2, h3, h4⟩ := ih true
        rw [collapseWsAux_cons_sp_f ha]
        refine ⟨?_, ?_, ?_, ?_⟩
        · intro c hc
          rcases List.mem_cons.mp hc with rfl | hc'
          · exact Or.inr rfl
          · rcases h1 c hc' with hin | hsp
            · exact Or.inl (List.mem_cons_of_mem _ hin)
            · exact Or.inr hsp
        · intro c hc hsp
          rcases List.mem_cons.mp hc with rfl | hc'
          · rfl
          · exact h2 c hc' hsp
        · rw [spacedOk, List.chain'_cons']
          refine ⟨?_, h3⟩
          intro y hy hcon
          have hyns := h4 rfl y hy
          rw [hcon.2] at hyns
          exact absurd hyns (by simp)
        · intro hcon
          simp at hcon
    · have ha' : isPySpace a = false := by simpa using ha
      obtain ⟨h1, h2, h3, h4⟩ := ih false
      rw [collapseWsAux_cons_ns ha']
      refine ⟨?_, ?_, ?_, ?_⟩
      · intro c hc
        rcases List.mem_cons.mp hc with rfl | hc'
        · exact Or.inl (List.mem_cons_self _ _)
        · rcases h1 c hc' with hin | hsp
          · exact Or.inl (List.mem_cons_of_mem _ hin)
          · exact Or.inr hsp
      · intro c hc hsp
        rcases List.mem_cons.mp hc with rfl | hc'
        · exact absurd hsp ha
        · exact h2 c hc' hsp
      · rw [spacedOk, List.chain'_cons']
        refine ⟨?_, h3⟩
        intro y _ hcon
        exact ha hcon.1
      · intro _ c hc
        rw [List.head?_cons, Option.some_inj] at hc
        rw [← hc]
        exact ha'

lemma blanksOk_tail {a : Char} {rest : Txt} (h : blanksOk (a :: rest)) :
    blanksOk rest :=
  fun c hc => h c (List.mem_cons_of_mem _ hc)

lemma spacedOk_tail {a : Char} {rest : Txt} (h : spacedOk (a :: rest)) :
    spacedOk rest :=
  List.Chain'.tail h

/-- On a string with no double whitespace and only plain spaces, the
collapse is the identity; started with the whitespace flag set it is still
the identity provided the string does not begin with whitespace. -/
lemma collapseWsAux_id : ∀ l : Txt, blanksOk l → spacedOk l →
    collapseWsAux false l = l ∧
    ((∀ c, l.head? = some c → isPySpace c = false) →
      collapseWsAux true l = l) := by
  intro l
  induction l with
  | nil => exact fun _ _ => ⟨rfl, fun _ => rfl⟩
  | cons a rest ih =>
    intro hb hs
    obtain ⟨ih1, ih2⟩ := ih (blanksOk_tail hb) (spacedOk_tail hs)
    by_cases ha : isPySpace a = true
    · have haeq : a = ' ' := hb a (List.mem_cons_self _ _) ha
      constructor
      · rw [collapseWsAux_cons_sp_f ha]
        have hhd : ∀ c, rest.head? = some c → isPySpace c = false := by
          intro c hc
          rw [spacedOk, List.chain'_cons'] at hs
          have hny := hs.1 c hc
          by_contra hcs
          simp only [Bool.not_eq_false] at hcs
          exact hny ⟨ha, hcs⟩
        rw [ih2 hhd, haeq]
      · intro hh
        have hcontra := hh a rfl
        rw [ha] at hcontra
        exact absurd hcontra (by simp)
    · have ha' : isPySpace a = false := by simpa using ha
      constructor
      · rw [collapseWsAux_cons_ns ha', ih1]
      · intro _
        rw [collapseWsAux_cons_ns ha', ih1]

/-- The head of a left-trimmed string is never whitespace. -/
lemma trimLeft_head : ∀ {l : Txt} {c : Char},
    (trimLeft l).head? = some c → isPySpace c = false := by
  intro l
  induction l with
  | nil => intro c h; simp [trimLeft] at h
  | cons a rest ih =>
    intro c h
    by_cases ha : isPySpace a = true
    · rw [trimLeft, List.dropWhile_cons, if_pos ha] at h
      exact ih h
    · have ha' : isPySpace a = false := by simpa using ha
      rw [trimLeft, List.dropWhile_cons, if_neg ha] at h
      rw [List.head?_cons, Option.some_inj] at h
      rw [← h]
      exact ha'

/-- Left-trimming a string that does not start with whitespace changes
nothing. -/
lemma trimLeft_id {l : Txt}
    (h : ∀ c, l.head? = some c → isPySpace c = false) : trimLeft l = l := by
  cases l with
  | nil => rfl
  | cons a rest =>
    rw [trimLeft, List.dropWhile_cons, if_neg]
    simp [h a rfl]

lemma trimLeft_suffix (l : Txt) : trimLeft l <:+ l :=
  List.dropWhile_suffix isPySpace

lemma trimLeft_mem {l : Txt} {c : Char} (h : c ∈ trimLeft l) : c ∈ l :=
  (trimLeft_suffix l).subset h

/-- Stripping keeps only characters of the original string. -/
lemma pyStrip_mem {l : Txt} {c : Char} (h : c ∈ pyStrip l) : c ∈ l := by
  rw [pyStrip, List.mem_reverse] at h
  have h1 := trimLeft_mem h
  rw [List.mem_reverse] at h1
  exact trimLeft_mem h1

/-- The last character of a stripped string is never whitespace. -/
lemma pyStrip_last {l : Txt} {c : Char} (h : (pyStrip l).getLast? = some c) :
    isPySpace c = false := by
  rw [pyStrip, List.getLast?_reverse] at h
  exact trimLeft_head h

/-- A suffix keeps the last element. -/
lemma getLast_of_suffix {l2 l : Txt} (hs : l2 <:+ l) {c : Char}
    (h : l2.getLast? = some c) : l.getLast? = some c := by
  obtain ⟨t, rfl⟩ := hs
  rw [List.getLast?_append, h]
  rfl

/-- The first character of a stripped string is never whitespace. -/
lemma pyStrip_head {l : Txt} {c : Char} (h : (pyStrip l).head? = some c) :
    isPySpace c = false := by
  rw [pyStrip, List.head?_reverse] at h
  have h2 := getLast_of_suffix (trimLeft_suffix ((trimLeft l).reverse)) h
  rw [List.getLast?_reverse] at h2
  exact trimLeft_head h2

lemma spacedOk_reverse {l : Txt} (h : spacedOk l) : spacedOk l.reverse := by
  rw [spacedOk, List.chain'_reverse]
  exact h.imp fun a b hab hc => hab ⟨hc.2, hc.1⟩

lemma spacedOk_suffix {l' l : Txt} (hs : l' <:+ l) (h : spacedOk l) :
    spacedOk l' :=
  List.Chain'.suffix h hs

/-- Stripping preserves the absence of adjacent whitespace. -/
lemma pyStrip_spacedOk {l : Txt} (h : spacedOk l) : spacedOk (pyStrip l) := by
  apply spacedOk_reverse
  apply spacedOk_suffix (trimLeft_suffix _)
  apply spacedOk_reverse
  exact spacedOk_suffix (trimLeft_suffix _) h

/-- Stripping a string whose ends carry no whitespace changes nothing. -/
lemma pyStrip_id {l : Txt}
    (hh : ∀ c, l.head? = some c → isPySpace c = false)
    (hl : ∀ c, l.getLast? = some c → isPySpace c = false) :
    pyStrip l = l := by
  rw [pyStrip, trimLeft_id hh, trimLeft_id, List.reverse_reverse]
  intro c hc
  rw [List.head?_reverse] at hc
  exact hl c hc

lemma inert_parts {c : Char} (h : inertChar c = true) :
    ccc c = 0 ∧ (canonDecomp c).isNone = true ∧ isZeroWidth c = false := by
  simp only [inertChar, Bool.and_eq_true, decide_eq_true_eq,
    Bool.not_eq_true'] at h
  exact ⟨h.1.1, h.1.2, h.2⟩

/-- normalize_text fixes any string of inert characters that has no
leading, trailing or doubled whitespace and writes all whitespace as the
plain space. -/
lemma normalize_text_id {m : Txt}
    (hin : ∀ c ∈ m, inertChar c = true)
    (hb : blanksOk m) (hs : spacedOk m)
    (hh : ∀ c, m.head? = some c → isPySpace c = false)
    (hl : ∀ c, m.getLast? = some c → isPySpace c = false) :
    normalize_text m = m := by
  by_cases hm : m = []
  · rw [hm]; rfl
  · have hdec : ∀ c ∈ m, (canonDecomp c).isNone = true :=
      fun c hc => (inert_parts (hin c hc)).2.1
    have hccc : ∀ c ∈ m, ccc c = 0 :=
      fun c hc => (inert_parts (hin c hc)).1
    have hzw : ∀ c ∈ m, isZeroWidth c = false :=
      fun c hc => (inert_parts (hin c hc)).2.2
    rw [normalize_text, if_neg hm, nfd_id hdec hccc, removeZeroWidth_id hzw,
      collapseWs, (collapseWsAux_id m hb hs).1, pyStrip_id hh hl]

/-- C9, counterexample: normalize_text is NOT idempotent in general. For
the text a, combining acute accent, zero-width space, combining grave
accent below, the first pass removes the zero-width space and leaves the
two combining marks out of canonical order, and the second pass reorders
them, changing the string. -/
theorem claim9_counterexample :
    normalize_text (normalize_text ['a', '́', '​', '̖']) ≠
      normalize_text ['a', '́', '​', '̖'] := by
  decide

/-- C9, amended: normalize_text IS idempotent on every string of
canonically inert characters (combining class zero, no canonical
decomposition, not zero-width), which covers all ASCII text: the first
pass leaves a stripped string with single plain spaces, on which every
stage of the second pass is the identity. -/
theorem claim9_theorem (l : Txt) (hin : ∀ c ∈ l, inertChar c = true) :
    normalize_text (normalize_text l) = normalize_text l := by
  by_cases hl : l = []
  · subst hl; rfl
  · have hdec : ∀ c ∈ l, (canonDecomp c).isNone = true :=
      fun c hc => (inert_parts (hin c hc)).2.1
    have hccc : ∀ c ∈ l, ccc c = 0 := fun c hc => (inert_parts (hin c hc)).1
    have hzw : ∀ c ∈ l, isZeroWidth c = false :=
      fun c hc => (inert_parts (hin c hc)).2.2
    have hstep1 : normalize_text l = pyStrip (collapseWsAux false l) := by
      rw [normalize_text, if_neg hl, nfd_id hdec hccc, removeZeroWidth_id hzw,
        collapseWs]
    obtain ⟨hc1, hc2, hc3, -⟩ := collapseWsAux_props l false
    rw [hstep1]
    apply normalize_text_id
    · intro c hc
      rcases hc1 c (pyStrip_mem hc) with hin' | hsp
      · exact hin c hin'
      · rw [hsp]; decide
    · exact fun c hc hsp => hc2 c (pyStrip_mem hc) hsp
    · exact pyStrip_spacedOk hc3
    · exact fun c hc => pyStrip_head hc
    · exact fun c hc => pyStrip_last hc

/-- C9, witness: the ASCII string with leading, doubled and trailing
blanks consists of inert characters, and normalizing it twice equals
normalizing it once. -/
theorem claim9_witness :
    (∀ c ∈ "  Hello   World ".data, inertChar c = true) ∧
    normalize_text (normalize_text "  Hello   World ".data) =
      normalize_text "  Hello   World ".data :=
  ⟨by decide, claim9_theorem _ (by decide)⟩
